import Mathlib

/-!
Verification of the control-center account/proxy subsystem.

This file gives a shallow embedding of the account/proxy core of the
repository and proves properties about it.  Two implementations coexist in
the source and both are embedded here:

* the SQLite-backed world: `DatabaseClient` (src/accountProxy/database/client.ts)
  together with `AccountProxyMapping` (src/accountProxy/mapping.ts),
  `HealthMonitor` (src/accountProxy/health.ts) and `ProxyFailover`
  (src/accountProxy/failover.ts); modelled in namespace `Db`;
* the in-memory world: `AccountProxyManager` (src/accountProxy.ts) and
  `AccountProxyWorkflows` (the workflow orchestrator); modelled in
  namespace `Mgr`.

Modelling conventions:

* SQL tables are lists of records; `crypto.randomUUID()` / `generateId()`
  are modelled by a monotone counter `nextId` carried in the state, so ids
  are `Nat`s rendered where needed.
* Date-valued fields (`createdAt`, `updatedAt`, `assignedAt`, ...) and
  purely descriptive columns (host/port/credentials, follower counts,
  notes, ...) are elided except where a verified property mentions them;
  `lastTested` is kept (as an `Option Nat` logical timestamp) because
  `testProxy` is specified to update it.
* JavaScript `Array.prototype.sort` is stable (ES2019); it is modelled by
  the stable insertion sort `sSort` below, which produces the unique
  stable result for a comparator.
* The external network probe inside `testProxy` (an HTTP fetch through the
  proxy) is out of scope per the specification; its outcome is passed in
  as a `ProbeOutcome` value: either a response (with ok-flag and status
  code) or a thrown error, matching the try/catch structure of the source.
* Operations that can throw in TypeScript return `Except String` here;
  `try`/`catch` in the source becomes matching on that value.
-/

namespace ControlCenter

/-- Stable insertion: `x` is placed before the first element `y` with
`¬ lt y x`; elements comparing equal to `x` that occur in the tail keep
their position after `x`.  Together with `sSort` this is the unique stable
sort for the strict comparator `lt`, the behaviour ES2019 guarantees for
`Array.prototype.sort`. -/
def sInsert (lt : α → α → Bool) (x : α) : List α → List α
  | [] => [x]
  | y :: ys => if lt y x then y :: sInsert lt x ys else x :: y :: ys

/-- Stable sort by the strict comparator `lt` (model of JS `Array.sort`). -/
def sSort (lt : α → α → Bool) : List α → List α
  | [] => []
  | x :: xs => sInsert lt x (sSort lt xs)

/-- JavaScript `a || b` on an optional string: `undefined` and `""` are
falsy. -/
def orFalsy (a : Option String) (b : String) : String :=
  match a with
  | none => b
  | some s => if s.isEmpty then b else s

-- ============================================================
-- Data model (database/schema.ts)
-- ============================================================

inductive Phase
  | warmup | soft | growth | full
deriving DecidableEq, Repr

inductive AccountStatus
  | active | suspended | banned | paused
deriving DecidableEq, Repr

inductive ProxyStatus
  | active | failed | maintenance
deriving DecidableEq, Repr

inductive IncidentType
  | proxy_failure | proxy_degraded | account_suspicious | account_suspended
  | rate_limit_hit | health_check_failed | failover_triggered | manual_intervention
deriving DecidableEq, Repr

inductive Severity
  | low | medium | high | critical
deriving DecidableEq, Repr

inductive IncidentStatus
  | open | investigating | resolved | ignored
deriving DecidableEq, Repr

/-- The `proxies` table / `Proxy` interface (network credentials and date
metadata elided). -/
structure Proxy where
  id : String
  status : ProxyStatus
  healthScore : Int
  maxAccounts : Nat
  assignedAccounts : Nat
  avgResponseTime : Nat
  successRate : Nat
  lastTested : Option Nat
deriving DecidableEq, Repr

/-- The `accounts` table / `Account` interface (contact, AdsPower and
follower-metric fields elided; none of the verified properties read
them). -/
structure Account where
  id : String
  name : String
  twitterHandle : String
  phase : Phase
  day : Nat
  status : AccountStatus
  healthScore : Int
  proxyId : String
  actionsToday : Nat
  spamScore : Nat
  dailyActionLimit : Nat
deriving DecidableEq, Repr

/-- The `mappings` table (`assigned_at`/`reassigned_at` timestamps
elided). -/
structure Mapping where
  id : Nat
  accountId : String
  proxyId : String
  isActive : Bool
  previousProxyId : Option String
  reassignmentReason : Option String
deriving DecidableEq, Repr

/-- The `incidents` table (`created_at`/`resolved_at` timestamps
elided). -/
structure Incident where
  id : Nat
  itype : IncidentType
  severity : Severity
  accountId : Option String
  proxyId : Option String
  title : String
  description : String
  oldProxyId : Option String
  newProxyId : Option String
  istatus : IncidentStatus
  resolution : Option String
  resolvedBy : Option String
deriving DecidableEq, Repr

/-- One row of `health_check_logs`. -/
structure HealthLog where
  accountId : Option String
  proxyId : Option String
  checkType : String
  proxyWorking : Bool
  proxyResponseTime : Option Nat
  healthScore : Int
  issues : List String
deriving DecidableEq, Repr

-- ============================================================
-- World A: DatabaseClient (database/client.ts)
-- ============================================================

namespace Db

/-- The SQLite database state plus the id generator. -/
structure DbState where
  proxies : List ControlCenter.Proxy
  accounts : List ControlCenter.Account
  mappings : List ControlCenter.Mapping
  incidents : List ControlCenter.Incident
  logs : List ControlCenter.HealthLog
  nextId : Nat
deriving DecidableEq, Repr

/-- `SELECT * FROM proxies WHERE id = ?` (`getProxy`). -/
def getProxy (s : DbState) (id : String) : Option Proxy :=
  s.proxies.find? (fun p => p.id == id)

/-- `SELECT * FROM accounts WHERE id = ?` (`getAccount`). -/
def getAccount (s : DbState) (id : String) : Option Account :=
  s.accounts.find? (fun a => a.id == id)

/-- `SELECT * FROM accounts WHERE proxy_id = ? ORDER BY id`
(`getAccountsByProxy`). -/
def getAccountsByProxy (s : DbState) (proxyId : String) : List Account :=
  sSort (fun a b => a.id < b.id)
    (s.accounts.filter (fun a => a.proxyId == proxyId))

/-- Update the (unique) proxy row with the given id. -/
def updateProxyF (s : DbState) (id : String) (f : Proxy → Proxy) : DbState :=
  { s with proxies := s.proxies.map (fun p => if p.id == id then f p else p) }

/-- Update the (unique) account row with the given id. -/
def updateAccountF (s : DbState) (id : String) (f : Account → Account) : DbState :=
  { s with accounts := s.accounts.map (fun a => if a.id == id then f a else a) }

/-- `incrementProxyAccountCount`:
`SET assigned_accounts = assigned_accounts + 1`. -/
def incrementProxyAccountCount (s : DbState) (proxyId : String) : DbState :=
  updateProxyF s proxyId
    (fun p => { p with assignedAccounts := p.assignedAccounts + 1 })

/-- `decrementProxyAccountCount`:
`SET assigned_accounts = MAX(0, assigned_accounts - 1)`; `Nat`
subtraction is exactly `MAX(0, · - 1)`. -/
def decrementProxyAccountCount (s : DbState) (proxyId : String) : DbState :=
  updateProxyF s proxyId
    (fun p => { p with assignedAccounts := p.assignedAccounts - 1 })

/-- `findAvailableProxy`:
`SELECT * FROM proxies WHERE status = 'active' AND assigned_accounts <
max_accounts ORDER BY assigned_accounts ASC, health_score DESC LIMIT 1`.
The fold returns the first row (in table order) that is minimal for the
`ORDER BY` key, a row SQLite is allowed to return. -/
def sqlBefore (p q : Proxy) : Bool :=
  p.assignedAccounts < q.assignedAccounts ||
    (p.assignedAccounts == q.assignedAccounts && q.healthScore < p.healthScore)

def availCandidates (s : DbState) : List Proxy :=
  s.proxies.filter
    (fun p => p.status == ProxyStatus.active && p.assignedAccounts < p.maxAccounts)

/-- Keep the row that comes first under the `ORDER BY` key. -/
def pickBest (best : Option Proxy) (p : Proxy) : Option Proxy :=
  match best with
  | none => some p
  | some q => if sqlBefore p q then some p else some q

def findAvailableProxy (s : DbState) : Option Proxy :=
  (availCandidates s).foldl pickBest none

/-- `createMapping`: `INSERT INTO mappings ...`, id freshly generated. -/
def createMapping (s : DbState) (accountId proxyId : String) (isActive : Bool)
    (previousProxyId : Option String) (reason : Option String) : DbState :=
  { s with
    mappings := s.mappings ++
      [{ id := s.nextId, accountId := accountId, proxyId := proxyId,
         isActive := isActive, previousProxyId := previousProxyId,
         reassignmentReason := reason }],
    nextId := s.nextId + 1 }

/-- `DatabaseClient.createAccount`: the `INSERT INTO accounts` throws on a
primary-key or unique-column conflict (`id`, `twitter_handle`); on success
the proxy count is incremented and an active mapping inserted. -/
def dbCreateAccount (s : DbState) (a : Account) : Except String DbState :=
  if s.accounts.any (fun b => b.id == a.id) then
    Except.error "UNIQUE constraint failed: accounts.id"
  else if s.accounts.any (fun b => b.twitterHandle == a.twitterHandle) then
    Except.error "UNIQUE constraint failed: accounts.twitter_handle"
  else
    let s1 := { s with accounts := s.accounts ++ [a] }
    let s2 := incrementProxyAccountCount s1 a.proxyId
    Except.ok (createMapping s2 a.id a.proxyId true none none)

/-- `DatabaseClient.updateAccountProxy`: re-point the account, adjust both
proxy counters, deactivate every mapping of the (account, old proxy) pair
and insert the new active mapping carrying `previous_proxy_id` and the
reason. -/
def updateAccountProxy (s : DbState) (accountId newProxyId : String)
    (reason : Option String) : Except String DbState :=
  match getAccount s accountId with
  | none => Except.error ("Account " ++ accountId ++ " not found")
  | some account =>
      let oldProxyId := account.proxyId
      let s1 := updateAccountF s accountId (fun a => { a with proxyId := newProxyId })
      let s2 := decrementProxyAccountCount s1 oldProxyId
      let s3 := incrementProxyAccountCount s2 newProxyId
      let s4 := { s3 with
        mappings := s3.mappings.map (fun m =>
          if m.accountId == accountId && m.proxyId == oldProxyId then
            { m with isActive := false }
          else m) }
      Except.ok (createMapping s4 accountId newProxyId true (some oldProxyId) reason)

/-- `createIncident`: insert with a fresh id, returning the new row. -/
def createIncident (s : DbState) (itype : IncidentType) (severity : Severity)
    (accountId proxyId : Option String) (title description : String)
    (oldProxyId newProxyId : Option String) (istatus : IncidentStatus)
    (resolution : Option String) : Incident × DbState :=
  let inc : Incident :=
    { id := s.nextId, itype := itype, severity := severity,
      accountId := accountId, proxyId := proxyId, title := title,
      description := description, oldProxyId := oldProxyId,
      newProxyId := newProxyId, istatus := istatus,
      resolution := resolution, resolvedBy := none }
  (inc, { s with incidents := s.incidents ++ [inc], nextId := s.nextId + 1 })

/-- `resolveIncident`. -/
def resolveIncident (s : DbState) (id : Nat) (resolution resolvedBy : String) :
    DbState :=
  { s with incidents := s.incidents.map (fun i =>
      if i.id == id then
        { i with istatus := IncidentStatus.resolved,
                 resolution := some resolution, resolvedBy := some resolvedBy }
      else i) }

/-- `logHealthCheck`. -/
def logHealthCheck (s : DbState) (log : HealthLog) : DbState :=
  { s with logs := s.logs ++ [log] }

end Db

-- ============================================================
-- AccountProxyMapping (mapping.ts)
-- ============================================================

namespace Db

/-- `AccountConfig` (mapping.ts). -/
structure AccountConfig where
  id : String
  name : String
  twitterHandle : String
  adspowerProfileId : String
deriving DecidableEq, Repr

/-- `MappingResult` (mapping.ts). -/
structure MappingResult where
  success : Bool
  account : Option Account
  proxy : Option Proxy
  error : Option String
deriving DecidableEq, Repr

/-- `getActionLimitForPhase` — the fixed phase table. -/
def getActionLimitForPhase : Phase → Nat
  | Phase.warmup => 10
  | Phase.soft => 20
  | Phase.growth => 50
  | Phase.full => 100

/-- The account record `AccountProxyMapping.createAccount` inserts. -/
def newAccount (config : AccountConfig) (proxyId : String) : Account :=
  { id := config.id, name := config.name,
    twitterHandle := config.twitterHandle,
    phase := Phase.warmup, day := 1, status := AccountStatus.active,
    healthScore := 100, proxyId := proxyId, actionsToday := 0,
    spamScore := 0, dailyActionLimit := getActionLimitForPhase Phase.warmup }

def noProxiesMsg : String :=
  "No available proxies. All proxies have 2 accounts assigned."

/-- `AccountProxyMapping.createAccount`: find an available proxy, re-check
its capacity, insert the account (the whole body is wrapped in try/catch,
so a thrown insert becomes a failure result with the thrown message). -/
def mappingCreateAccount (s : DbState) (config : AccountConfig) :
    MappingResult × DbState :=
  match findAvailableProxy s with
  | none =>
      ({ success := false, account := none, proxy := none,
         error := some noProxiesMsg }, s)
  | some proxy =>
      if proxy.maxAccounts ≤ proxy.assignedAccounts then
        ({ success := false, account := none, proxy := none,
           error := some ("Proxy " ++ proxy.id ++ " is at capacity") }, s)
      else
        let a := newAccount config proxy.id
        match dbCreateAccount s a with
        | Except.error e =>
            ({ success := false, account := none, proxy := none,
               error := some e }, s)
        | Except.ok s1 =>
            ({ success := true, account := some a,
               proxy := getProxy s1 proxy.id, error := none }, s1)

/-- `AccountProxyMapping.moveAccount`. -/
def moveAccount (s : DbState) (accountId targetProxyId : String)
    (reason : Option String) : MappingResult × DbState :=
  match getAccount s accountId with
  | none =>
      ({ success := false, account := none, proxy := none,
         error := some ("Account " ++ accountId ++ " not found") }, s)
  | some _ =>
      match getProxy s targetProxyId with
      | none =>
          ({ success := false, account := none, proxy := none,
             error := some ("Proxy " ++ targetProxyId ++ " not found") }, s)
      | some targetProxy =>
          if targetProxy.maxAccounts ≤ targetProxy.assignedAccounts then
            ({ success := false, account := none, proxy := none,
               error := some ("Target proxy " ++ targetProxyId ++ " is at capacity") }, s)
          else
            match updateAccountProxy s accountId targetProxyId
                (some (orFalsy reason "manual_move")) with
            | Except.error e =>
                ({ success := false, account := none, proxy := none,
                   error := some e }, s)
            | Except.ok s1 =>
                ({ success := true, account := getAccount s1 accountId,
                   proxy := getProxy s1 targetProxyId, error := none }, s1)

/-- One entry of `validateMappings`' per-proxy summary. -/
structure ProxyValidation where
  proxyId : String
  accountCount : Nat
  maxAllowed : Nat
  isValid : Bool
  accounts : List String
deriving DecidableEq, Repr

structure ValidationResult where
  isValid : Bool
  violations : List String
  summary : List ProxyValidation
deriving DecidableEq, Repr

/-- `AccountProxyMapping.validateMappings`. -/
def validateMappings (s : DbState) : ValidationResult :=
  let summary := s.proxies.map (fun p =>
    let accounts := getAccountsByProxy s p.id
    { proxyId := p.id, accountCount := accounts.length,
      maxAllowed := p.maxAccounts,
      isValid := accounts.length ≤ p.maxAccounts,
      accounts := accounts.map (fun a => a.id) : ProxyValidation })
  let violations := (summary.filter (fun v => !v.isValid)).map (fun v =>
    "Proxy " ++ v.proxyId ++ " has too many accounts")
  { isValid := violations.length == 0, violations := violations,
    summary := summary }

structure MoveResult where
  accountId : String
  fromProxy : String
  toProxy : Option String
  success : Bool
  error : Option String
deriving DecidableEq, Repr

structure RebalanceResult where
  success : Bool
  moves : List MoveResult
  message : String
deriving DecidableEq, Repr

/-- Inner loop of `rebalanceMappings`: move each listed account to a
freshly looked-up available proxy. -/
def rebalanceMoves (s : DbState) (fromProxy : String) :
    List String → List MoveResult × DbState
  | [] => ([], s)
  | accountId :: rest =>
      match findAvailableProxy s with
      | some newProxy =>
          let s1 := match updateAccountProxy s accountId newProxy.id
              (some "rebalancing") with
            | Except.ok s1 => s1
            | Except.error _ => s
          let (moves, s2) := rebalanceMoves s1 fromProxy rest
          ({ accountId := accountId, fromProxy := fromProxy,
             toProxy := some newProxy.id, success := true,
             error := none } :: moves, s2)
      | none =>
          let (moves, s2) := rebalanceMoves s fromProxy rest
          ({ accountId := accountId, fromProxy := fromProxy, toProxy := none,
             success := false,
             error := some "No available proxies for rebalancing" } :: moves, s2)

/-- Outer loop of `rebalanceMappings` over the validation summary. -/
def rebalanceOver (s : DbState) :
    List ProxyValidation → List MoveResult × DbState
  | [] => ([], s)
  | v :: rest =>
      if v.isValid then rebalanceOver s rest
      else
        let excess := v.accountCount - v.maxAllowed
        let toMove := v.accounts.drop (v.accounts.length - excess)
        let (moves1, s1) := rebalanceMoves s v.proxyId toMove
        let (moves2, s2) := rebalanceOver s1 rest
        (moves1 ++ moves2, s2)

/-- `AccountProxyMapping.rebalanceMappings`; `accounts.slice(-excess)` is
the last `excess` elements, i.e. `drop (length - excess)`. -/
def rebalanceMappings (s : DbState) : RebalanceResult × DbState :=
  let validation := validateMappings s
  if validation.isValid then
    ({ success := true, moves := [], message := "No rebalancing needed" }, s)
  else
    let (moves, s1) := rebalanceOver s validation.summary
    ({ success := moves.all (fun m => m.success), moves := moves,
       message := "Rebalanced" }, s1)

/-- `AccountProxyMapping.advancePhase`.  The source looks the phase up in
`['warmup','soft','growth','full']` and advances `indexOf + 1`; this match
is that table. -/
def nextPhase : Phase → Option Phase
  | Phase.warmup => some Phase.soft
  | Phase.soft => some Phase.growth
  | Phase.growth => some Phase.full
  | Phase.full => none

def advancePhase (s : DbState) (accountId : String) :
    Option Account × DbState :=
  match getAccount s accountId with
  | none => (none, s)
  | some account =>
      match nextPhase account.phase with
      | some newPhase =>
          let s1 := updateAccountF s accountId (fun a =>
            { a with phase := newPhase,
                     dailyActionLimit := getActionLimitForPhase newPhase })
          (getAccount s1 accountId, s1)
      | none => (some account, s)

end Db

-- ============================================================
-- HealthMonitor (health.ts)
-- ============================================================

namespace Db

/-- `HealthFactors` (health.ts): `accountStatus` is a plain string in the
source and is compared against `'suspended'` / `'banned'`; `actionRatio`
and `spamScore` are JS numbers, modelled as rationals. -/
structure HealthFactors where
  proxyWorking : Bool
  accountStatus : String
  actionRatio : ℚ
  spamScore : ℚ
  issues : Nat
deriving DecidableEq

/-- `HealthMonitor.calculateHealthScore` (identical to
`AccountProxyManager.calculateHealthScore` in accountProxy.ts):
start at 100, subtract the fixed weights, clamp into [0, 100].
`Math.floor(spamScore / 10)` is `⌊spamScore / 10⌋`. -/
def calculateHealthScore (factors : HealthFactors) : Int :=
  let score : Int := 100
  let score := if !factors.proxyWorking then score - 40 else score
  let score := if factors.accountStatus == "suspended" then score - 30 else score
  let score := if factors.accountStatus == "banned" then score - 50 else score
  let score := if (9 : ℚ) / 10 < factors.actionRatio then score - 10 else score
  let score := score - Int.floor (factors.spamScore / 10)
  let score := score - factors.issues * 2
  max 0 (min 100 score)

/-- Result of `testProxy`. -/
structure ProxyTestResult where
  working : Bool
  responseTime : Nat
  statusCode : Option Nat
  error : Option String
deriving DecidableEq, Repr

/-- Outcome of the external network probe: either an HTTP response was
received (`ok` is `response.ok`), or the fetch threw (timeout, network
error). -/
inductive ProbeOutcome
  | response (responseTime : Nat) (ok : Bool) (statusCode : Nat)
  | thrown (responseTime : Nat) (message : String)
deriving DecidableEq, Repr

/-- `HealthMonitor.testProxy`: on any received response the proxy row gets
`last_tested`, `avg_response_time` and `success_rate` (100 iff
`response.ok`); in the catch branch only `last_tested` and
`success_rate = 0` are written — `avg_response_time` is left unchanged. -/
def testProxy (s : DbState) (proxyId : String) (now : Nat)
    (outcome : ProbeOutcome) : ProxyTestResult × DbState :=
  match outcome with
  | ProbeOutcome.response rt ok code =>
      let s1 := updateProxyF s proxyId (fun p =>
        { p with lastTested := some now, avgResponseTime := rt,
                 successRate := if ok then 100 else 0 })
      if ok then
        ({ working := true, responseTime := rt, statusCode := some code,
           error := none }, s1)
      else
        ({ working := false, responseTime := rt, statusCode := some code,
           error := some ("HTTP " ++ toString code) }, s1)
  | ProbeOutcome.thrown rt msg =>
      let s1 := updateProxyF s proxyId (fun p =>
        { p with lastTested := some now, successRate := 0 })
      ({ working := false, responseTime := rt, statusCode := none,
         error := some msg }, s1)

/-- Loop body of `HealthMonitor.checkAllProxies` over the snapshot taken
by `getAllProxies()` at entry.  Note that the failing branch runs on every
failing probe: it sets `status = 'failed'`, writes
`healthScore = max 0 (snapshot healthScore - 20)` and opens a new
`proxy_failure` incident each time; only a proxy whose snapshot status is
`'failed'` and whose probe passes is recovered
(`status = 'active'`, `healthScore = min 100 (snapshot healthScore + 10)`). -/
def checkProxiesGo (now : Nat) (probe : String → ProbeOutcome) :
    DbState → List Proxy → DbState
  | st, [] => st
  | st, p :: rest =>
      let (tr, st1) := testProxy st p.id now (probe p.id)
      let st2 :=
        if !tr.working then
          let st' := updateProxyF st1 p.id (fun q =>
            { q with status := ProxyStatus.failed,
                     healthScore := max 0 (p.healthScore - 20) })
          (createIncident st' IncidentType.proxy_failure Severity.high
            none (some p.id)
            ("Proxy " ++ p.id ++ " failed health check")
            ((tr.error).getD "Unknown error") none none
            IncidentStatus.open none).2
        else if p.status == ProxyStatus.failed then
          updateProxyF st1 p.id (fun q =>
            { q with status := ProxyStatus.active,
                     healthScore := min 100 (p.healthScore + 10) })
        else st1
      let st3 := logHealthCheck st2
        { accountId := none, proxyId := some p.id, checkType := "proxy",
          proxyWorking := tr.working, proxyResponseTime := some tr.responseTime,
          healthScore := if tr.working then 100 else 0,
          issues := match tr.error with | some e => [e] | none => [] }
      checkProxiesGo now probe st3 rest

/-- `HealthMonitor.checkAllProxies` (results list elided; only the state
effect is verified). -/
def checkAllProxies (s : DbState) (now : Nat)
    (probe : String → ProbeOutcome) : DbState :=
  checkProxiesGo now probe s s.proxies

end Db

-- ============================================================
-- ProxyFailover (failover.ts)
-- ============================================================

namespace Db

/-- `FailoverResult` (failover.ts). -/
structure FailoverResult where
  success : Bool
  accountId : String
  oldProxyId : String
  newProxyId : Option String
  error : Option String
  incidentId : Option Nat
deriving DecidableEq, Repr

/-- `ProxyFailover`'s state: the database plus the in-memory
`inProgress : Set<string>` concurrency guard. -/
structure FailoverState where
  db : DbState
  inProgress : List String
deriving DecidableEq, Repr

def alreadyInProgressMsg : String :=
  "Failover already in progress for this account"

def failResult (accountId oldProxyId : String) (error : String)
    (incidentId : Option Nat) : FailoverResult :=
  { success := false, accountId := accountId, oldProxyId := oldProxyId,
    newProxyId := none, error := some error, incidentId := incidentId }

/-- The `try` block of `handleProxyFailure` (everything between the guard
insertion and the `finally`).  Returns the result (or a thrown error) plus
the database as left by the body.  `enableAutoFailover` is the
`FailoverConfig` flag (default `true`). -/
def handleProxyFailureBody (db : DbState) (accountId : String)
    (reason : Option String) (enableAutoFailover : Bool) :
    Except String FailoverResult × DbState :=
  match getAccount db accountId with
  | none => (Except.ok (failResult accountId "" "Account not found" none), db)
  | some account =>
      let oldProxyId := account.proxyId
      if !enableAutoFailover then
        let (inc, db1) := createIncident db IncidentType.proxy_failure
          Severity.high (some accountId) (some oldProxyId)
          ("Proxy failure detected for " ++ accountId)
          (orFalsy reason "Auto-failover disabled") none none
          IncidentStatus.open none
        (Except.ok (failResult accountId oldProxyId "Auto-failover disabled"
          (some inc.id)), db1)
      else
        let db1 := updateProxyF db oldProxyId
          (fun p => { p with status := ProxyStatus.failed })
        match findAvailableProxy db1 with
        | none =>
            let (inc, db2) := createIncident db1 IncidentType.proxy_failure
              Severity.critical (some accountId) (some oldProxyId)
              ("CRITICAL: No available proxies for " ++ accountId)
              ("Proxy " ++ oldProxyId ++ " failed and no backup proxies available.")
              none none IncidentStatus.open none
            (Except.ok (failResult accountId oldProxyId
              "No available proxies for failover" (some inc.id)), db2)
        | some newProxy =>
            match updateAccountProxy db1 accountId newProxy.id
                (some (orFalsy reason "proxy_failure")) with
            | Except.error e => (Except.error e, db1)
            | Except.ok db2 =>
                let (inc, db3) := createIncident db2
                  IncidentType.failover_triggered Severity.medium
                  (some accountId) (some oldProxyId)
                  ("Failover completed for " ++ accountId)
                  ("Switched from " ++ oldProxyId ++ " to " ++ newProxy.id)
                  (some oldProxyId) (some newProxy.id)
                  IncidentStatus.resolved
                  (some "Automatic failover completed successfully")
                let db4 := resolveIncident db3 inc.id
                  "Automatic failover completed" "system"
                (Except.ok
                  { success := true, accountId := accountId,
                    oldProxyId := oldProxyId, newProxyId := some newProxy.id,
                    error := none, incidentId := some inc.id }, db4)

/-- The guard / `try`-`catch`-`finally` skeleton of `handleProxyFailure`,
generic in the body so the `finally` semantics (guard released on success,
failure and thrown exception alike) is captured for any body. -/
def guardedRun (fs : FailoverState) (accountId : String)
    (body : DbState → Except String FailoverResult × DbState) :
    FailoverResult × FailoverState :=
  if fs.inProgress.contains accountId then
    (failResult accountId "" alreadyInProgressMsg none, fs)
  else
    let held := accountId :: fs.inProgress
    match body fs.db with
    | (Except.ok r, db1) => (r, { db := db1, inProgress := held.erase accountId })
    | (Except.error e, db1) =>
        (failResult accountId "" e none,
         { db := db1, inProgress := held.erase accountId })

/-- `ProxyFailover.handleProxyFailure`. -/
def handleProxyFailure (fs : FailoverState) (accountId : String)
    (reason : Option String) (enableAutoFailover : Bool) :
    FailoverResult × FailoverState :=
  guardedRun fs accountId
    (fun db => handleProxyFailureBody db accountId reason enableAutoFailover)

/-- Loop of `bulkFailover` over the snapshot of accounts bound to the
proxy. -/
def bulkFailoverGo (reason : Option String) (auto : Bool) :
    FailoverState → List String → List FailoverResult × FailoverState
  | fs, [] => ([], fs)
  | fs, accountId :: rest =>
      let (r, fs1) := handleProxyFailure fs accountId
        (some (orFalsy reason "bulk_failover")) auto
      let (rs, fs2) := bulkFailoverGo reason auto fs1 rest
      (r :: rs, fs2)

/-- `ProxyFailover.bulkFailover`: mark the proxy failed, then serially
fail over every account bound to it. -/
def bulkFailover (fs : FailoverState) (fromProxyId : String)
    (reason : Option String) (auto : Bool) :
    List FailoverResult × FailoverState :=
  let accounts := (getAccountsByProxy fs.db fromProxyId).map (fun a => a.id)
  let fs1 := { fs with
    db := updateProxyF fs.db fromProxyId
      (fun p => { p with status := ProxyStatus.failed }) }
  bulkFailoverGo reason auto fs1 accounts

end Db

-- ============================================================
-- Operation sequences over the database world
-- ============================================================

namespace Db

/-- The public mutating operations of the allocation / failover subsystem
(claim C1's list): account creation, manual move, single-account failover,
bulk failover, rebalancing. -/
inductive Step
  | createAccount (config : AccountConfig)
  | moveAccount (accountId targetProxyId : String) (reason : Option String)
  | failoverAccount (accountId : String) (reason : Option String) (auto : Bool)
  | bulkFailover (proxyId : String) (reason : Option String) (auto : Bool)
  | rebalance

/-- Execute one operation (discarding its result). -/
def execStep (fs : FailoverState) : Step → FailoverState
  | Step.createAccount config =>
      { fs with db := (mappingCreateAccount fs.db config).2 }
  | Step.moveAccount accountId targetProxyId reason =>
      { fs with db := (moveAccount fs.db accountId targetProxyId reason).2 }
  | Step.failoverAccount accountId reason auto =>
      (handleProxyFailure fs accountId reason auto).2
  | Step.bulkFailover proxyId reason auto =>
      (Db.bulkFailover fs proxyId reason auto).2
  | Step.rebalance =>
      { fs with db := (rebalanceMappings fs.db).2 }

def execSteps (fs : FailoverState) : List Step → FailoverState
  | [] => fs
  | step :: rest => execSteps (execStep fs step) rest

/-- The number of accounts bound to a proxy id. -/
def boundCount (s : DbState) (proxyId : String) : Nat :=
  s.accounts.countP (fun a => a.proxyId == proxyId)

/-- The count used by the capacity invariant as the specification states
it: accounts whose `proxyId` points at the proxy and whose mapping is
active. -/
def activeBoundCount (s : DbState) (proxyId : String) : Nat :=
  s.accounts.countP (fun a =>
    a.proxyId == proxyId &&
      s.mappings.any (fun m => m.accountId == a.id && m.isActive))

/-- Number of active mapping rows for an account id. -/
def activeMappingCount (s : DbState) (accountId : String) : Nat :=
  s.mappings.countP (fun m => m.accountId == accountId && m.isActive)

/-- Consistency of a database state:
ids are unique, every account's proxy exists, every proxy's counter is
within capacity and equals the number of accounts bound to it, every
account has exactly one active mapping, that mapping agrees with the
account's live `proxyId` pointer, and active mappings belong to existing
accounts.  All conjuncts are decidable, so concrete states can be checked
by `decide`. -/
def Consistent (s : DbState) : Prop :=
  (s.proxies.map (fun p => p.id)).Nodup ∧
  (s.accounts.map (fun a => a.id)).Nodup ∧
  (∀ a ∈ s.accounts, ∃ p ∈ s.proxies, p.id = a.proxyId) ∧
  (∀ p ∈ s.proxies, p.assignedAccounts ≤ p.maxAccounts) ∧
  (∀ p ∈ s.proxies, p.assignedAccounts = boundCount s p.id) ∧
  (∀ a ∈ s.accounts, activeMappingCount s a.id = 1) ∧
  (∀ a ∈ s.accounts, ∀ m ∈ s.mappings,
      m.accountId = a.id → m.isActive = true → m.proxyId = a.proxyId) ∧
  (∀ m ∈ s.mappings, m.isActive = true → ∃ a ∈ s.accounts, a.id = m.accountId)

/-- Boolean duplicate check used to decide the `Nodup` conjuncts of
`Consistent` by kernel reduction. -/
def nodupKeys : List String → Bool
  | [] => true
  | x :: xs => !(xs.any (fun y => y == x)) && nodupKeys xs

theorem nodupKeys_iff (l : List String) : nodupKeys l = true ↔ l.Nodup := by
  induction l with
  | nil => simp [nodupKeys]
  | cons x xs ih =>
      simp only [nodupKeys, List.nodup_cons, Bool.and_eq_true,
        Bool.not_eq_true', List.any_eq_false, ← ih]
      constructor
      · intro h
        refine ⟨fun hmem => ?_, h.2⟩
        have := h.1 x hmem
        simp at this
      · intro h
        refine ⟨fun y hy => ?_, h.2⟩
        by_cases hxy : (y == x) = true
        · exact absurd (by rw [← beq_iff_eq.mp hxy]; exact hy) h.1
        · simpa using hxy

instance (l : List String) : Decidable l.Nodup :=
  decidable_of_iff (nodupKeys l = true) (nodupKeys_iff l)

instance (s : DbState) : Decidable (Consistent s) := by
  unfold Consistent
  infer_instance

end Db

-- ============================================================
-- World B: AccountProxyManager (accountProxy.ts)
-- ============================================================

namespace Mgr

/-- The manager's in-memory state: `Map`s of accounts, proxies and
incidents (in insertion order) plus the id generator.  The record types
are shared with the database world — the TypeScript interfaces are
identical. -/
structure MgrState where
  accounts : List ControlCenter.Account
  proxies : List ControlCenter.Proxy
  incidents : List ControlCenter.Incident
  nextId : Nat
deriving DecidableEq, Repr

/-- `Map.prototype.set`: replace in place if the key exists, else append.
(`Map` iteration order is insertion order.) -/
def mapSet (l : List Account) (a : Account) : List Account :=
  if l.any (fun b => b.id == a.id) then
    l.map (fun b => if b.id == a.id then a else b)
  else l ++ [a]

def getAccount (m : MgrState) (id : String) : Option Account :=
  m.accounts.find? (fun a => a.id == id)

def getProxy (m : MgrState) (id : String) : Option Proxy :=
  m.proxies.find? (fun p => p.id == id)

def getAccountsByProxy (m : MgrState) (proxyId : String) : List Account :=
  m.accounts.filter (fun a => a.proxyId == proxyId)

/-- `AccountProxyManager.getActiveProxies`: filter on `status === 'active'`
then a stable sort ascending on `assignedAccounts`. -/
def getActiveProxies (m : MgrState) : List Proxy :=
  sSort (fun a b => a.assignedAccounts < b.assignedAccounts)
    (m.proxies.filter (fun p => p.status == ProxyStatus.active))

/-- `AccountProxyManager.findAvailableProxy`: filter the active proxies to
those with spare capacity, sort again on `assignedAccounts`, take the
first.  Note: no `healthScore` tie-break — ties keep insertion order. -/
def findAvailableProxy (m : MgrState) : Option Proxy :=
  (sSort (fun a b => a.assignedAccounts < b.assignedAccounts)
    ((getActiveProxies m).filter
      (fun p => p.assignedAccounts < p.maxAccounts))).head?

/-- `AccountProxyManager.createAccount`: throws if no proxy is available;
otherwise stores the account (a `Map.set`, silently replacing any account
with the same id) and increments the chosen proxy's counter. -/
def createAccount (m : MgrState) (accountData : Account) :
    Except String (Account × MgrState) :=
  match findAvailableProxy m with
  | none =>
      Except.error "No available proxies. All proxies at capacity (2 accounts max)."
  | some availableProxy =>
      let account := { accountData with proxyId := availableProxy.id }
      let m1 := { m with accounts := mapSet m.accounts account }
      let m2 := { m1 with proxies := m1.proxies.map (fun p =>
        if p.id == availableProxy.id then
          { p with assignedAccounts := p.assignedAccounts + 1 }
        else p) }
      Except.ok (account, m2)

/-- `AccountProxyManager.createIncident` (id freshly generated). -/
def createIncident (m : MgrState) (itype : IncidentType) (severity : Severity)
    (accountId proxyId : Option String) (title description : String)
    (oldProxyId newProxyId : Option String) (istatus : IncidentStatus) :
    Incident × MgrState :=
  let inc : Incident :=
    { id := m.nextId, itype := itype, severity := severity,
      accountId := accountId, proxyId := proxyId, title := title,
      description := description, oldProxyId := oldProxyId,
      newProxyId := newProxyId, istatus := istatus,
      resolution := none, resolvedBy := none }
  (inc, { m with incidents := m.incidents ++ [inc], nextId := m.nextId + 1 })

/-- Outcome of the manager's (stubbed, external) proxy probe: the try
block either returns normally or throws into the catch branch. -/
inductive MgrProbe
  | ok (responseTime : Nat)
  | thrown (responseTime : Nat) (message : String)
deriving DecidableEq, Repr

/-- `AccountProxyManager.testProxy`.  The probe itself is the external
network test (stubbed in the source behind a try/catch); its outcome is
the `MgrProbe` argument.  On a normal return the metrics are set to
`successRate = 100`; in the catch branch `successRate = 0` and
`avgResponseTime` is left unchanged. -/
def testProxy (m : MgrState) (proxyId : String) (now : Nat)
    (outcome : MgrProbe) : Db.ProxyTestResult × MgrState :=
  match getProxy m proxyId with
  | none =>
      ({ working := false, responseTime := 0, statusCode := none,
         error := some "Proxy not found" }, m)
  | some _ =>
      match outcome with
      | MgrProbe.ok rt =>
          let m1 := { m with proxies := m.proxies.map (fun p =>
            if p.id == proxyId then
              { p with avgResponseTime := rt, lastTested := some now,
                       successRate := 100 }
            else p) }
          ({ working := true, responseTime := rt, statusCode := none,
             error := none }, m1)
      | MgrProbe.thrown rt msg =>
          let m1 := { m with proxies := m.proxies.map (fun p =>
            if p.id == proxyId then
              { p with successRate := 0, lastTested := some now }
            else p) }
          ({ working := false, responseTime := rt, statusCode := none,
             error := some msg }, m1)

end Mgr

-- ============================================================
-- AccountProxyWorkflows (workflow orchestrator)
-- ============================================================

namespace Wf

open Mgr

inductive StepStatus
  | pending | in_progress | completed | failed
deriving DecidableEq, Repr

inductive WfType
  | onboarding | maintenance | recovery | bulk_operation
deriving DecidableEq, Repr

inductive WfStatus
  | pending | running | completed | failed
deriving DecidableEq, Repr

def wtypeStr : WfType → String
  | WfType.onboarding => "onboarding"
  | WfType.maintenance => "maintenance"
  | WfType.recovery => "recovery"
  | WfType.bulk_operation => "bulk_operation"

/-- `WorkflowStep` (timing fields elided, output elided). -/
structure WorkflowStep where
  id : String
  name : String
  status : StepStatus
  error : Option String
deriving DecidableEq, Repr

structure Workflow where
  id : String
  wtype : WfType
  status : WfStatus
  steps : List WorkflowStep
deriving DecidableEq, Repr

/-- `generateId()` (`Date.now()` + random suffix in the source) modelled
by a counter rendered as a string. -/
def genId (n : Nat) : String := "id-" ++ toString n

/-- The orchestrator state: the manager plus the `workflows` map and the
id generator. -/
structure WfState where
  mgr : MgrState
  workflows : List Workflow
  nextId : Nat
deriving DecidableEq, Repr

/-- A workflow step's unit of work: mutates the manager or throws.  This
is exactly the `operation: () => Promise<T>` parameter of `executeStep`
(outputs elided; failing operations in the source do not mutate the
manager before throwing). -/
def StepOp := MgrState → Except String MgrState

/-- `executeStep`: push the step record, run the operation, stamp
`completed`, or stamp `failed` with the error and re-raise. -/
def executeStep (w : Workflow) (nid : Nat) (name : String) (op : StepOp)
    (m : MgrState) : Except String MgrState × Workflow × Nat :=
  match op m with
  | Except.ok m1 =>
      (Except.ok m1,
       { w with steps := w.steps ++
          [{ id := genId nid, name := name, status := StepStatus.completed,
             error := none }] },
       nid + 1)
  | Except.error e =>
      (Except.error e,
       { w with steps := w.steps ++
          [{ id := genId nid, name := name, status := StepStatus.failed,
             error := some e }] },
       nid + 1)

/-- Run named steps in order, stopping at the first failure (the workflow
functions re-raise out of `executeStep`). -/
def runSteps : Workflow → Nat → MgrState → List (String × StepOp) →
    Workflow × Nat × MgrState × Option String
  | w, nid, m, [] => (w, nid, m, none)
  | w, nid, m, (name, op) :: rest =>
      match executeStep w nid name op m with
      | (Except.ok m1, w1, nid1) => runSteps w1 nid1 m1 rest
      | (Except.error e, w1, nid1) => (w1, nid1, m, some e)

/-- `OnboardingConfig` (email/phone/notes elided). -/
structure OnboardingConfig where
  accountId : String
  name : String
  twitterHandle : String
  adspowerProfileId : String
  initialPhase : Option Phase
deriving DecidableEq, Repr

/-- `config.initialPhase || 'warmup'`. -/
def onboardPhase (config : OnboardingConfig) : Phase :=
  (config.initialPhase).getD Phase.warmup

/-- The account record the `create_account` step passes to
`manager.createAccount` (the manager overwrites `proxyId`). -/
def onboardAccountData (config : OnboardingConfig) : Account :=
  { id := config.accountId, name := config.name,
    twitterHandle := config.twitterHandle, phase := onboardPhase config,
    day := 1, status := AccountStatus.active, healthScore := 100,
    proxyId := "", actionsToday := 0, spamScore := 0,
    dailyActionLimit := Db.getActionLimitForPhase (onboardPhase config) }

/-- Step 5 of `onboardAccount` as written: find the proxy carrying the new
account and probe it through `manager.testProxy`.  `testProxy` catches
every probe error, so this operation never throws. -/
def healthCheckStep (config : OnboardingConfig) (now : Nat)
    (probe : MgrProbe) : StepOp :=
  fun m =>
    match m.proxies.find? (fun p =>
        (getAccountsByProxy m p.id).any (fun a => a.id == config.accountId)) with
    | some proxy => Except.ok (testProxy m proxy.id now probe).2
    | none => Except.ok m

/-- Step 1: `validate` — required-field checks (JS falsy = empty
string). -/
def validateStep (config : OnboardingConfig) : StepOp := fun m =>
  if config.accountId.isEmpty || config.name.isEmpty ||
      config.twitterHandle.isEmpty then
    Except.error "Missing required fields: accountId, name, twitterHandle"
  else if config.adspowerProfileId.isEmpty then
    Except.error "Missing required field: adspowerProfileId"
  else Except.ok m

/-- Step 2: `check_proxies`. -/
def checkProxiesStep : StepOp := fun m =>
  match findAvailableProxy m with
  | none =>
      Except.error "No available proxies. All proxies at capacity (2 accounts max)."
  | some _ => Except.ok m

/-- Step 3: `create_account` via the manager. -/
def createAccountStep (config : OnboardingConfig) : StepOp := fun m =>
  match createAccount m (onboardAccountData config) with
  | Except.error e => Except.error e
  | Except.ok (_, m1) => Except.ok m1

/-- Step 4: `verify_assignment`. -/
def verifyAssignmentStep (config : OnboardingConfig) : StepOp := fun m =>
  match getAccount m config.accountId with
  | none => Except.error "Account created but proxy assignment failed"
  | some a =>
      if a.proxyId.isEmpty then
        Except.error "Account created but proxy assignment failed"
      else Except.ok m

/-- Step 6: `complete` — publishes an event; no manager-state effect. -/
def completeStep : StepOp := fun m => Except.ok m

/-- The six onboarding steps, with the `health_check` operation passed in
(see `onboardAccount` for the concrete instance). -/
def onboardSteps (config : OnboardingConfig) (healthCheckOp : StepOp) :
    List (String × StepOp) :=
  [("validate", validateStep config),
   ("check_proxies", checkProxiesStep),
   ("create_account", createAccountStep config),
   ("verify_assignment", verifyAssignmentStep config),
   ("health_check", healthCheckOp),
   ("complete", completeStep)]

/-- `onboardAccount`, generic in the `health_check` operation (the claim's
scenario supposes that step throws; in the source its concrete body —
`healthCheckStep` — cannot, because `manager.testProxy` catches probe
errors).  On success the workflow is completed; on a step failure
`failWorkflow` marks it failed and opens a `manual_intervention`
incident titled after the workflow *type* with the step error as
description. -/
def onboardAccountWith (st : WfState) (config : OnboardingConfig)
    (healthCheckOp : StepOp) : Workflow × WfState :=
  let w0 : Workflow :=
    { id := genId st.nextId, wtype := WfType.onboarding,
      status := WfStatus.running, steps := [] }
  match runSteps w0 (st.nextId + 1) st.mgr (onboardSteps config healthCheckOp) with
  | (w1, nid1, m1, none) =>
      let w2 := { w1 with status := WfStatus.completed }
      (w2, { mgr := m1, workflows := st.workflows ++ [w2], nextId := nid1 })
  | (w1, nid1, m1, some e) =>
      let w2 := { w1 with status := WfStatus.failed }
      let m2 := (Mgr.createIncident m1 IncidentType.manual_intervention
        Severity.high none none
        ("Workflow " ++ wtypeStr w0.wtype ++ " failed") e none none
        IncidentStatus.open).2
      (w2, { mgr := m2, workflows := st.workflows ++ [w2], nextId := nid1 })

/-- `AccountProxyWorkflows.onboardAccount` with its concrete
`health_check` body. -/
def onboardAccount (st : WfState) (config : OnboardingConfig) (now : Nat)
    (probe : MgrProbe) : Workflow × WfState :=
  onboardAccountWith st config (healthCheckStep config now probe)

/-- `pat` occurs at the start of `text`. -/
def leadsWith : List Char → List Char → Bool
  | [], _ => true
  | _ :: _, [] => false
  | p :: ps, c :: cs => p == c && leadsWith ps cs

/-- `pat` occurs somewhere in `text`. -/
def hasSub (pat : List Char) : List Char → Bool
  | [] => leadsWith pat []
  | c :: rest => leadsWith pat (c :: rest) || hasSub pat rest

/-- `text` contains `pat` as a substring (decidably). -/
def mentions (text pat : String) : Bool :=
  hasSub pat.toList text.toList

/-- An incident references a workflow id iff some reference field equals
it or it occurs in the title or description. -/
def referencesWorkflow (inc : Incident) (wid : String) : Bool :=
  inc.accountId == some wid || inc.proxyId == some wid ||
    inc.oldProxyId == some wid || inc.newProxyId == some wid ||
    mentions inc.title wid || mentions inc.description wid

end Wf

-- ============================================================
-- Toolkit lemmas
-- ============================================================

section Toolkit

variable {α : Type _}

/-- Splitting counts along a boolean condition. -/
theorem countP_and_split (p q : α → Bool) (l : List α) :
    l.countP (fun x => p x && q x) + l.countP (fun x => p x && !q x) =
      l.countP p := by
  induction l with
  | nil => simp
  | cons x xs ih =>
      by_cases hp : p x = true <;> by_cases hq : q x = true <;>
        simp [List.countP_cons, hp, hq] <;> omega

/-- A list with `Nodup` keys containing `a` splits around `a`, with every
other element having a different key. -/
theorem split_of_nodup_key (key : α → String) {l : List α} {a : α}
    (hnd : (l.map key).Nodup) (ha : a ∈ l) :
    ∃ l1 l2, l = l1 ++ a :: l2 ∧ ∀ b, b ∈ l1 ∨ b ∈ l2 → key b ≠ key a := by
  induction l with
  | nil => cases ha
  | cons x xs ih =>
      simp only [List.map_cons, List.nodup_cons] at hnd
      rcases List.mem_cons.mp ha with rfl | hmem
      · refine ⟨[], xs, rfl, ?_⟩
        intro b hb hk
        rcases hb with hb | hb
        · cases hb
        · exact hnd.1 (by rw [← hk]; exact List.mem_map_of_mem key hb)
      · obtain ⟨l1, l2, rfl, hrest⟩ := ih hnd.2 hmem
        refine ⟨x :: l1, l2, rfl, ?_⟩
        intro b hb hk
        rcases hb with hb | hb
        · rcases List.mem_cons.mp hb with rfl | hb1
          · exact hnd.1 (by rw [hk]; exact List.mem_map_of_mem key hmem)
          · exact hrest b (Or.inl hb1) hk
        · exact hrest b (Or.inr hb) hk

/-- With `Nodup` keys, two members with the same key are equal. -/
theorem key_unique (key : α → String) {l : List α} {a b : α}
    (hnd : (l.map key).Nodup) (ha : a ∈ l) (hb : b ∈ l)
    (hk : key a = key b) : a = b := by
  obtain ⟨l1, l2, rfl, hrest⟩ := split_of_nodup_key key hnd ha
  rcases List.mem_append.mp hb with hb1 | hb2
  · exact absurd hk.symm (hrest b (Or.inl hb1))
  · rcases List.mem_cons.mp hb2 with rfl | hb3
    · rfl
    · exact absurd hk.symm (hrest b (Or.inr hb3))

/-- A keyed update whose key occurs nowhere is the identity. -/
theorem map_update_absent (key : α → String) (f : α → α) (id0 : String)
    {l : List α} (h : ∀ b ∈ l, key b ≠ id0) :
    l.map (fun x => if key x == id0 then f x else x) = l := by
  have h1 : l.map (fun x => if key x == id0 then f x else x) = l.map id := by
    apply List.map_congr_left
    intro b hb
    simp [h b hb]
  rw [h1, List.map_id]

/-- A keyed in-place update rewrites the split form. -/
theorem map_update_split (key : α → String) (f : α → α)
    {l1 l2 : List α} {a : α}
    (hrest : ∀ b, b ∈ l1 ∨ b ∈ l2 → key b ≠ key a) :
    (l1 ++ a :: l2).map (fun x => if key x == key a then f x else x) =
      l1 ++ f a :: l2 := by
  rw [List.map_append, List.map_cons]
  rw [map_update_absent key f (key a) (fun b hb => hrest b (Or.inl hb))]
  rw [show (if (key a == key a) = true then f a else a) = f a by simp]
  rw [map_update_absent key f (key a) (fun b hb => hrest b (Or.inr hb))]

/-- `find?` over a keyed update finds the updated element, provided `f`
preserves the key. -/
theorem find?_map_update (key : α → String) (f : α → α) (id0 : String)
    (hf : ∀ x, key (f x) = key x) (l : List α) :
    (l.map (fun x => if key x == id0 then f x else x)).find?
        (fun x => key x == id0) =
      (l.find? (fun x => key x == id0)).map f := by
  induction l with
  | nil => simp
  | cons x xs ih =>
      by_cases hx : key x = id0
      · simp [List.find?_cons, hx, hf]
      · have h1 : (key x == id0) = false := by simp [hx]
        simp only [List.map_cons, List.find?_cons, h1, if_neg, cond_false]
        simpa [h1] using ih

/-- Keys of a keyed in-place update are unchanged when `f` preserves the
key. -/
theorem map_key_map_update (key : α → String) (f : α → α) (id0 : String)
    (hf : ∀ x, key (f x) = key x) (l : List α) :
    (l.map (fun x => if key x == id0 then f x else x)).map key = l.map key := by
  rw [List.map_map]
  apply List.map_congr_left
  intro b _
  by_cases hb : key b = id0 <;> simp [hb, hf]

/-- A keyed, key-preserving update keeps a `Nodup` key list `Nodup`. -/
theorem nodup_key_map_update (key : α → String) (f : α → α) (id0 : String)
    (hf : ∀ x, key (f x) = key x) (l : List α)
    (h : (l.map key).Nodup) :
    ((l.map (fun x => if key x == id0 then f x else x)).map key).Nodup := by
  rw [map_key_map_update key f id0 hf l]
  exact h

/-- Membership in a stable insert. -/
theorem mem_sInsert (lt : α → α → Bool) (x y : α) (l : List α) :
    y ∈ ControlCenter.sInsert lt x l ↔ y = x ∨ y ∈ l := by
  induction l with
  | nil => simp [ControlCenter.sInsert]
  | cons z zs ih =>
      by_cases h : lt z x = true <;> simp [ControlCenter.sInsert, h, ih] <;> tauto

/-- Membership in a stable sort. -/
theorem mem_sSort (lt : α → α → Bool) (y : α) (l : List α) :
    y ∈ ControlCenter.sSort lt l ↔ y ∈ l := by
  induction l with
  | nil => simp [ControlCenter.sSort]
  | cons z zs ih => simp [ControlCenter.sSort, mem_sInsert, ih]

/-- `sSort` preserves `countP`. -/
theorem countP_sSort (lt : α → α → Bool) (p : α → Bool) (l : List α) :
    (ControlCenter.sSort lt l).countP p = l.countP p := by
  have hins : ∀ (x : α) (m : List α),
      (ControlCenter.sInsert lt x m).countP p =
        (if p x then 1 else 0) + m.countP p := by
    intro x m
    induction m with
    | nil => by_cases hp : p x = true <;> simp [ControlCenter.sInsert, hp]
    | cons z zs ih =>
        by_cases h : lt z x = true <;>
          by_cases hp : p z = true <;>
            simp [ControlCenter.sInsert, h, List.countP_cons, hp, ih] <;> omega
  induction l with
  | nil => rfl
  | cons z zs ih =>
      rw [ControlCenter.sSort, hins, ih, List.countP_cons]
      by_cases hp : p z = true <;> simp [hp] <;> omega

/-- `sSort` preserves length. -/
theorem length_sSort (lt : α → α → Bool) (l : List α) :
    (ControlCenter.sSort lt l).length = l.length := by
  have h1 := countP_sSort lt (fun _ => true) l
  simpa using h1

/-- An asymmetric comparator is irreflexive. -/
theorem lt_irrefl_of_asymm (lt : α → α → Bool)
    (hAsymm : ∀ a b, lt a b = true → lt b a = false) (a : α) :
    lt a a = false := by
  by_contra hc
  simp only [Bool.not_eq_false] at hc
  have := hAsymm a a hc
  rw [this] at hc
  cases hc

/-- The head of a stable sort is minimal, for an asymmetric comparator
whose negation is transitive. -/
theorem sSort_head_min (lt : α → α → Bool)
    (hAsymm : ∀ a b, lt a b = true → lt b a = false)
    (hNegTrans : ∀ a b c, lt b a = false → lt c b = false → lt c a = false)
    {l : List α} {y : α} {ys : List α}
    (h : ControlCenter.sSort lt l = y :: ys) :
    ∀ z ∈ l, lt z y = false := by
  induction l generalizing y ys with
  | nil => simp [ControlCenter.sSort] at h
  | cons x xs ih =>
      rw [ControlCenter.sSort] at h
      cases hs : ControlCenter.sSort lt xs with
      | nil =>
          rw [hs] at h
          rw [ControlCenter.sInsert] at h
          injection h with h1 h2
          subst h1
          intro z hz
          rcases List.mem_cons.mp hz with rfl | hz1
          · exact lt_irrefl_of_asymm lt hAsymm _
          · exact absurd ((mem_sSort lt z xs).mpr hz1) (by simp [hs])
      | cons w ws =>
          rw [hs] at h
          have hw := ih hs
          rw [ControlCenter.sInsert] at h
          by_cases hltwx : lt w x = true
          · rw [if_pos hltwx] at h
            injection h with h1 h2
            subst h1
            intro z hz
            rcases List.mem_cons.mp hz with rfl | hz1
            · exact hAsymm _ _ hltwx
            · exact hw z hz1
          · have hltwx' : lt w x = false := by simpa using hltwx
            rw [if_neg (by simp [hltwx'])] at h
            injection h with h1 h2
            subst h1
            intro z hz
            rcases List.mem_cons.mp hz with rfl | hz1
            · exact lt_irrefl_of_asymm lt hAsymm _
            · exact hNegTrans _ _ _ hltwx' (hw z hz1)

end Toolkit

-- ============================================================
-- Facts about Db.findAvailableProxy
-- ============================================================

namespace Db

/-- `p` is at least as preferred as `q` under the SQL `ORDER BY
assigned_accounts ASC, health_score DESC`. -/
def goodLe (p q : Proxy) : Prop :=
  p.assignedAccounts ≤ q.assignedAccounts ∧
    (q.assignedAccounts = p.assignedAccounts → q.healthScore ≤ p.healthScore)

theorem goodLe_refl (p : Proxy) : goodLe p p :=
  ⟨le_refl _, fun _ => le_refl _⟩

theorem goodLe_trans {p q r : Proxy} (h1 : goodLe p q) (h2 : goodLe q r) :
    goodLe p r := by
  obtain ⟨h1a, h1b⟩ := h1
  obtain ⟨h2a, h2b⟩ := h2
  refine ⟨le_trans h1a h2a, fun h => ?_⟩
  have hqa : q.assignedAccounts = p.assignedAccounts := by omega
  have hra : r.assignedAccounts = q.assignedAccounts := by omega
  exact le_trans (h2b hra) (h1b hqa)

theorem goodLe_of_not_before {p q : Proxy} (h : sqlBefore q p = false) :
    goodLe p q := by
  unfold sqlBefore at h
  rw [Bool.or_eq_false_iff] at h
  obtain ⟨h1, h2⟩ := h
  rw [decide_eq_false_iff_not] at h1
  rw [Bool.and_eq_false_iff] at h2
  refine ⟨by omega, fun heq => ?_⟩
  rcases h2 with h2 | h2
  · rw [beq_eq_false_iff_ne] at h2
    omega
  · rw [decide_eq_false_iff_not] at h2
    omega

theorem goodLe_of_before {p q : Proxy} (h : sqlBefore p q = true) :
    goodLe p q := by
  unfold sqlBefore at h
  rw [Bool.or_eq_true] at h
  rcases h with h | h
  · rw [decide_eq_true_eq] at h
    exact ⟨le_of_lt h, fun heq => by omega⟩
  · rw [Bool.and_eq_true] at h
    obtain ⟨h1, h2⟩ := h
    rw [beq_iff_eq] at h1
    rw [decide_eq_true_eq] at h2
    exact ⟨le_of_eq h1, fun _ => le_of_lt h2⟩

/-- Case analysis of `pickBest`. -/
theorem pickBest_cases (acc : Option Proxy) (x b0 : Proxy)
    (h0 : pickBest acc x = some b0) :
    goodLe b0 x ∧ (b0 = x ∨ acc = some b0) := by
  cases acc with
  | none =>
      simp only [pickBest] at h0
      cases h0
      exact ⟨goodLe_refl _, Or.inl rfl⟩
  | some b =>
      simp only [pickBest] at h0
      by_cases hb : sqlBefore x b = true
      · rw [if_pos hb] at h0
        cases h0
        exact ⟨goodLe_refl _, Or.inl rfl⟩
      · rw [if_neg hb] at h0
        cases h0
        exact ⟨goodLe_of_not_before (by simpa using hb), Or.inr rfl⟩

theorem pickBest_isSome (acc : Option Proxy) (x : Proxy) :
    ∃ b0, pickBest acc x = some b0 := by
  cases acc with
  | none => exact ⟨x, rfl⟩
  | some b =>
      by_cases hb : sqlBefore x b = true
      · exact ⟨x, by simp only [pickBest]; rw [if_pos hb]⟩
      · exact ⟨b, by simp only [pickBest]; rw [if_neg hb]⟩

/-- Specification of the `LIMIT 1` fold in `findAvailableProxy`. -/
theorem foldPick_spec (l : List Proxy) :
    ∀ (acc : Option Proxy) (p : Proxy),
      l.foldl pickBest acc = some p →
      (p ∈ l ∨ acc = some p) ∧ (∀ q ∈ l, goodLe p q) ∧
        (∀ b, acc = some b → goodLe p b) := by
  induction l with
  | nil =>
      intro acc p h
      simp only [List.foldl_nil] at h
      refine ⟨Or.inr h, by simp, ?_⟩
      intro b hb
      rw [hb] at h
      cases h
      exact goodLe_refl _
  | cons x xs ih =>
      intro acc p h
      rw [List.foldl_cons] at h
      obtain ⟨hmem, hall, hacc⟩ := ih _ p h
      obtain ⟨b0, hb0⟩ := pickBest_isSome acc x
      obtain ⟨hb0le, hb0or⟩ := pickBest_cases acc x b0 hb0
      constructor
      · rcases hmem with hmem | hmem
        · exact Or.inl (List.mem_cons_of_mem x hmem)
        · rw [hmem] at hb0
          cases hb0
          rcases hb0or with rfl | hacc'
          · exact Or.inl (List.mem_cons_self _ _)
          · exact Or.inr hacc'
      constructor
      · intro q hq
        rcases List.mem_cons.mp hq with rfl | hq1
        · exact goodLe_trans (hacc b0 hb0) hb0le
        · exact hall q hq1
      · intro b hb
        subst hb
        by_cases hxb : sqlBefore x b = true
        · exact goodLe_trans (hacc x (by simp only [pickBest]; rw [if_pos hxb]))
            (goodLe_of_before hxb)
        · exact hacc b (by simp only [pickBest]; rw [if_neg hxb])

/-- The fold never forgets a candidate once it holds one. -/
theorem foldPick_ne_none (l : List Proxy) :
    ∀ (b : Proxy), l.foldl pickBest (some b) ≠ none := by
  induction l with
  | nil => intro b h; cases h
  | cons x xs ih =>
      intro b
      rw [List.foldl_cons]
      obtain ⟨b0, hb0⟩ := pickBest_isSome (some b) x
      rw [hb0]
      exact ih b0

/-- If `findAvailableProxy` returns a proxy, it is an active proxy with
spare capacity that is minimal in `assignedAccounts` and, among equally
loaded candidates, maximal in `healthScore`. -/
theorem findAvailableProxy_some {s : DbState} {p : Proxy}
    (h : findAvailableProxy s = some p) :
    p ∈ s.proxies ∧ p.status = ProxyStatus.active ∧
      p.assignedAccounts < p.maxAccounts ∧
      ∀ q ∈ s.proxies, q.status = ProxyStatus.active →
        q.assignedAccounts < q.maxAccounts → goodLe p q := by
  unfold findAvailableProxy at h
  obtain ⟨hmem, hall, _⟩ := foldPick_spec (availCandidates s) none p h
  have hmem' : p ∈ availCandidates s := by
    rcases hmem with hmem | hmem
    · exact hmem
    · cases hmem
  have hp := List.mem_filter.mp hmem'
  have hp2 := hp.2
  simp only [Bool.and_eq_true, beq_iff_eq, decide_eq_true_eq] at hp2
  refine ⟨hp.1, hp2.1, hp2.2, ?_⟩
  intro q hq hqs hqc
  apply hall
  apply List.mem_filter.mpr
  exact ⟨hq, by simp [hqs, hqc]⟩

/-- `findAvailableProxy` returns nothing only when no active proxy has
spare capacity. -/
theorem findAvailableProxy_none {s : DbState}
    (h : findAvailableProxy s = none) :
    ∀ q ∈ s.proxies, q.status = ProxyStatus.active →
      q.maxAccounts ≤ q.assignedAccounts := by
  intro q hq hqs
  by_contra hc
  push_neg at hc
  have hmem : q ∈ availCandidates s :=
    List.mem_filter.mpr ⟨hq, by simp [hqs, hc]⟩
  unfold findAvailableProxy at h
  rcases hcand : availCandidates s with _ | ⟨x, xs⟩
  · rw [hcand] at hmem; cases hmem
  · rw [hcand, List.foldl_cons] at h
    exact foldPick_ne_none xs x h

end Db

-- ============================================================
-- State-lookup helper lemmas
-- ============================================================

namespace Db

theorem getProxy_updateProxyF (s : DbState) (pid : String) (f : Proxy → Proxy)
    (hf : ∀ x, (f x).id = x.id) :
    getProxy (updateProxyF s pid f) pid = (getProxy s pid).map f := by
  have h := find?_map_update (fun p : Proxy => p.id) f pid hf s.proxies
  exact h

theorem getAccount_updateAccountF (s : DbState) (aid : String)
    (f : Account → Account) (hf : ∀ x, (f x).id = x.id) :
    getAccount (updateAccountF s aid f) aid = (getAccount s aid).map f := by
  have h := find?_map_update (fun a : Account => a.id) f aid hf s.accounts
  exact h

end Db

-- ============================================================
-- Claim C5: the health-score formula
-- ============================================================

namespace Db

/-- The score exactly as the specification words it: 100, minus 40 if the
proxy is not working, minus 30 if suspended, minus 50 if banned, minus 10
if the action ratio exceeds 0.9, minus `⌊spamScore/10⌋`, minus 2 per
issue, clamped to [0, 100]. -/
def healthScoreSpec (f : HealthFactors) : Int :=
  let raw : Int := 100
    - (if f.proxyWorking then 0 else 40)
    - (if f.accountStatus == "suspended" then 30 else 0)
    - (if f.accountStatus == "banned" then 50 else 0)
    - (if (9 : ℚ) / 10 < f.actionRatio then 10 else 0)
    - Int.floor (f.spamScore / 10)
    - 2 * f.issues
  min 100 (max 0 raw)

end Db

/-- C5.  `calculateHealthScore` computes exactly the specification's
weighted deduction formula clamped to [0, 100]; in particular the factors
`{proxyWorking: false, accountStatus: "active", actionRatio: 0.5,
spamScore: 30, issues: 1}` score exactly 55. -/
theorem c5_health_score_formula :
    (∀ f : Db.HealthFactors,
        Db.calculateHealthScore f = Db.healthScoreSpec f) ∧
      Db.calculateHealthScore
        { proxyWorking := false, accountStatus := "active",
          actionRatio := 1 / 2, spamScore := 30, issues := 1 } = 55 := by
  constructor
  · intro f
    unfold Db.calculateHealthScore Db.healthScoreSpec
    by_cases h1 : f.proxyWorking
    all_goals by_cases h2 : f.accountStatus == "suspended"
    all_goals by_cases h3 : f.accountStatus == "banned"
    all_goals by_cases h4 : (9 : ℚ) / 10 < f.actionRatio
    all_goals simp only [h1, h2, h3, h4, Bool.not_true, Bool.not_false,
      if_true, if_false, Bool.false_eq_true, eq_self_iff_true]
    all_goals simp [h1, h2, h3, h4]
    all_goals omega
  · unfold Db.calculateHealthScore
    norm_num
    decide

-- ============================================================
-- Claim C10: advancePhase
-- ============================================================

/-- C10.  `advancePhase` returns `null` for an unknown account, is a
no-op returning the account unchanged when the account is already in the
final phase `full`, and otherwise advances the phase exactly one step
along warmup→soft→growth→full, setting `dailyActionLimit` from the fixed
phase table. -/
theorem c10_advance_phase :
    ∀ (s : Db.DbState) (accountId : String),
      (Db.getAccount s accountId = none →
        Db.advancePhase s accountId = (none, s)) ∧
      (∀ a, Db.getAccount s accountId = some a → a.phase = Phase.full →
        Db.advancePhase s accountId = (some a, s)) ∧
      (∀ a p, Db.getAccount s accountId = some a → Db.nextPhase a.phase = some p →
        Db.advancePhase s accountId =
          (some { a with phase := p,
                         dailyActionLimit := Db.getActionLimitForPhase p },
           Db.updateAccountF s accountId (fun b =>
             { b with phase := p,
                      dailyActionLimit := Db.getActionLimitForPhase p }))) := by
  intro s accountId
  refine ⟨?_, ?_, ?_⟩
  · intro h
    unfold Db.advancePhase
    rw [h]
  · intro a ha hfull
    simp only [Db.advancePhase, ha, hfull, Db.nextPhase]
  · intro a p ha hp
    simp only [Db.advancePhase, ha, hp]
    rw [Db.getAccount_updateAccountF s accountId
      (fun b => { b with phase := p,
                         dailyActionLimit := Db.getActionLimitForPhase p })
      (fun x => rfl), ha]
    rfl

/-- Witness for C10 at a concrete one-account state in phase `growth`. -/
theorem c10_advance_phase_witness :
    Db.advancePhase
      { proxies := [], accounts :=
          [{ id := "a1", name := "n", twitterHandle := "h",
             phase := Phase.growth, day := 20, status := AccountStatus.active,
             healthScore := 90, proxyId := "p1", actionsToday := 0,
             spamScore := 0, dailyActionLimit := 50 }],
        mappings := [], incidents := [], logs := [], nextId := 0 } "a1" =
      (some { id := "a1", name := "n", twitterHandle := "h",
              phase := Phase.full, day := 20, status := AccountStatus.active,
              healthScore := 90, proxyId := "p1", actionsToday := 0,
              spamScore := 0, dailyActionLimit := 100 },
       Db.updateAccountF
         { proxies := [], accounts :=
             [{ id := "a1", name := "n", twitterHandle := "h",
                phase := Phase.growth, day := 20, status := AccountStatus.active,
                healthScore := 90, proxyId := "p1", actionsToday := 0,
                spamScore := 0, dailyActionLimit := 50 }],
           mappings := [], incidents := [], logs := [], nextId := 0 } "a1"
         (fun b => { b with phase := Phase.full, dailyActionLimit := 100 })) := by
  have h := (c10_advance_phase
    { proxies := [], accounts :=
        [{ id := "a1", name := "n", twitterHandle := "h",
           phase := Phase.growth, day := 20, status := AccountStatus.active,
           healthScore := 90, proxyId := "p1", actionsToday := 0,
           spamScore := 0, dailyActionLimit := 50 }],
      mappings := [], incidents := [], logs := [], nextId := 0 } "a1").2.2
    { id := "a1", name := "n", twitterHandle := "h",
      phase := Phase.growth, day := 20, status := AccountStatus.active,
      healthScore := 90, proxyId := "p1", actionsToday := 0,
      spamScore := 0, dailyActionLimit := 50 } Phase.full (by rfl) (by rfl)
  exact h

-- ============================================================
-- Claim C9: testProxy metric updates
-- ============================================================

/-- C9 (amended).  `testProxy` always updates `lastTested` and
`successRate` (100 exactly when the response was ok, otherwise 0) and
returns the working flag, the measured response time and an error message
on failure; `avgResponseTime` is set to the measured time whenever an
HTTP response is received (ok or not), but is left unchanged when the
probe throws. -/
theorem c9_test_proxy_metrics :
    ∀ (s : Db.DbState) (pid : String) (now : Nat) (p : Proxy),
      Db.getProxy s pid = some p →
      (∀ rt ok code,
        (Db.testProxy s pid now (Db.ProbeOutcome.response rt ok code)).1 =
          { working := ok, responseTime := rt, statusCode := some code,
            error := if ok then none else some ("HTTP " ++ toString code) } ∧
        Db.getProxy (Db.testProxy s pid now
            (Db.ProbeOutcome.response rt ok code)).2 pid =
          some { p with lastTested := some now, avgResponseTime := rt,
                        successRate := if ok then 100 else 0 }) ∧
      (∀ rt msg,
        (Db.testProxy s pid now (Db.ProbeOutcome.thrown rt msg)).1 =
          { working := false, responseTime := rt, statusCode := none,
            error := some msg } ∧
        Db.getProxy (Db.testProxy s pid now
            (Db.ProbeOutcome.thrown rt msg)).2 pid =
          some { p with lastTested := some now, successRate := 0 }) := by
  intro s pid now p hp
  constructor
  · intro rt ok code
    cases ok with
    | false =>
        refine ⟨rfl, ?_⟩
        have h2 : (Db.testProxy s pid now
            (Db.ProbeOutcome.response rt false code)).2 =
            Db.updateProxyF s pid (fun q =>
              { q with lastTested := some now, avgResponseTime := rt,
                       successRate := 0 }) := rfl
        rw [h2, Db.getProxy_updateProxyF s pid (fun q =>
          { q with lastTested := some now, avgResponseTime := rt,
                   successRate := 0 }) (fun x => rfl), hp]
        rfl
    | true =>
        refine ⟨rfl, ?_⟩
        have h2 : (Db.testProxy s pid now
            (Db.ProbeOutcome.response rt true code)).2 =
            Db.updateProxyF s pid (fun q =>
              { q with lastTested := some now, avgResponseTime := rt,
                       successRate := 100 }) := rfl
        rw [h2, Db.getProxy_updateProxyF s pid (fun q =>
          { q with lastTested := some now, avgResponseTime := rt,
                   successRate := 100 }) (fun x => rfl), hp]
        rfl
  · intro rt msg
    refine ⟨rfl, ?_⟩
    have h2 : (Db.testProxy s pid now (Db.ProbeOutcome.thrown rt msg)).2 =
        Db.updateProxyF s pid (fun q =>
          { q with lastTested := some now, successRate := 0 }) := rfl
    rw [h2, Db.getProxy_updateProxyF s pid (fun q =>
      { q with lastTested := some now, successRate := 0 }) (fun x => rfl), hp]
    rfl

/-- Concrete one-proxy fixture used by the C9 theorems. -/
def proxyFix : Proxy :=
  { id := "p1", status := ProxyStatus.active, healthScore := 100,
    maxAccounts := 2, assignedAccounts := 0, avgResponseTime := 123,
    successRate := 100, lastTested := none }

def dbFix9 : Db.DbState :=
  { proxies := [proxyFix], accounts := [], mappings := [], incidents := [],
    logs := [], nextId := 0 }

/-- Witness for C9 at a concrete one-proxy state. -/
theorem c9_test_proxy_metrics_witness :
    Db.getProxy dbFix9 "p1" = some proxyFix ∧
    (Db.testProxy dbFix9 "p1" 7 (Db.ProbeOutcome.response 50 true 200)).1 =
      { working := true, responseTime := 50, statusCode := some 200,
        error := none } := by
  constructor
  · rfl
  · exact ((c9_test_proxy_metrics dbFix9 "p1" 7 proxyFix (by rfl)).1 50 true 200).1

/-- C9, counterexample to the claim as stated: when the probe throws, the
stored `avgResponseTime` (123) is not updated to the measured response
time (50), although the claim says all three metrics are updated
regardless of outcome. -/
theorem c9_test_proxy_counterexample :
    ((Db.testProxy dbFix9 "p1" 7
        (Db.ProbeOutcome.thrown 50 "socket timeout")).2.proxies.map
      (fun p => p.avgResponseTime)) = [123] ∧
    (Db.testProxy dbFix9 "p1" 7
        (Db.ProbeOutcome.thrown 50 "socket timeout")).1.responseTime = 50 ∧
    (123 : Nat) ≠ 50 := by
  refine ⟨rfl, rfl, by decide⟩

-- ============================================================
-- Claim C4: the per-account failover concurrency guard
-- ============================================================

/-- C4.  A `handleProxyFailure` call for an account whose id is already in
the in-progress set returns a failure carrying the "already in progress"
error with the state (database included) unchanged, so no reassignment
happens; and for an id not in the set, the guarded run — for any body,
i.e. on success, failure and thrown exception alike — leaves the id out
of the in-progress set when it completes. -/
theorem c4_failover_guard :
    (∀ (fs : Db.FailoverState) (aid : String) (reason : Option String)
        (auto : Bool),
      fs.inProgress.contains aid = true →
      Db.handleProxyFailure fs aid reason auto =
        (Db.failResult aid "" Db.alreadyInProgressMsg none, fs)) ∧
    (∀ (fs : Db.FailoverState) (aid : String)
        (body : Db.DbState → Except String Db.FailoverResult × Db.DbState),
      fs.inProgress.contains aid = false →
      ((Db.guardedRun fs aid body).2.inProgress.contains aid) = false) := by
  constructor
  · intro fs aid reason auto h
    unfold Db.handleProxyFailure Db.guardedRun
    rw [if_pos h]
  · intro fs aid body h
    unfold Db.guardedRun
    rw [if_neg (by simpa using h)]
    rcases hb : body fs.db with ⟨res, db1⟩
    cases res with
    | ok r =>
        show ((aid :: fs.inProgress).erase aid).contains aid = false
        rw [List.erase_cons_head]
        simpa using h
    | error e =>
        show ((aid :: fs.inProgress).erase aid).contains aid = false
        rw [List.erase_cons_head]
        simpa using h

-- ============================================================
-- Claim C3: proxy selection rule
-- ============================================================

namespace Mgr

/-- The comparator of the manager's two sorts. -/
def ltAssigned (a b : Proxy) : Bool := a.assignedAccounts < b.assignedAccounts

theorem ltAssigned_asymm : ∀ a b, ltAssigned a b = true → ltAssigned b a = false := by
  intro a b h
  unfold ltAssigned at *
  rw [decide_eq_true_eq] at h
  rw [decide_eq_false_iff_not]
  omega

theorem ltAssigned_negTrans :
    ∀ a b c, ltAssigned b a = false → ltAssigned c b = false →
      ltAssigned c a = false := by
  intro a b c h1 h2
  unfold ltAssigned at *
  rw [decide_eq_false_iff_not] at h1 h2 ⊢
  omega

end Mgr

/-- C3 (amended).  The database client's `findAvailableProxy` returns an
active proxy with spare capacity that has the minimum `assignedAccounts`
and, among candidates tied on `assignedAccounts`, the highest
`healthScore`, and returns nothing only when no active proxy has spare
capacity.  The manager's `findAvailableProxy` guarantees the same except
the tie-break: it returns a minimally loaded active proxy with spare
capacity (ties resolved by insertion order, not by `healthScore`). -/
theorem c3_find_available_proxy :
    (∀ (s : Db.DbState) (p : Proxy),
      Db.findAvailableProxy s = some p →
      p ∈ s.proxies ∧ p.status = ProxyStatus.active ∧
        p.assignedAccounts < p.maxAccounts ∧
        ∀ q ∈ s.proxies, q.status = ProxyStatus.active →
          q.assignedAccounts < q.maxAccounts →
          p.assignedAccounts ≤ q.assignedAccounts ∧
            (q.assignedAccounts = p.assignedAccounts →
              q.healthScore ≤ p.healthScore)) ∧
    (∀ s : Db.DbState, Db.findAvailableProxy s = none →
      ∀ q ∈ s.proxies, q.status = ProxyStatus.active →
        q.maxAccounts ≤ q.assignedAccounts) ∧
    (∀ (m : Mgr.MgrState) (p : Proxy),
      Mgr.findAvailableProxy m = some p →
      p ∈ m.proxies ∧ p.status = ProxyStatus.active ∧
        p.assignedAccounts < p.maxAccounts ∧
        ∀ q ∈ m.proxies, q.status = ProxyStatus.active →
          q.assignedAccounts < q.maxAccounts →
          p.assignedAccounts ≤ q.assignedAccounts) ∧
    (∀ m : Mgr.MgrState, Mgr.findAvailableProxy m = none →
      ∀ q ∈ m.proxies, q.status = ProxyStatus.active →
        q.maxAccounts ≤ q.assignedAccounts) := by
  refine ⟨?_, ?_, ?_, ?_⟩
  · intro s p h
    obtain ⟨h1, h2, h3, h4⟩ := Db.findAvailableProxy_some h
    exact ⟨h1, h2, h3, h4⟩
  · intro s h
    exact Db.findAvailableProxy_none h
  · intro m p h
    unfold Mgr.findAvailableProxy at h
    cases hsort : ControlCenter.sSort
        (fun a b => a.assignedAccounts < b.assignedAccounts)
        ((Mgr.getActiveProxies m).filter
          (fun p => p.assignedAccounts < p.maxAccounts)) with
    | nil => rw [hsort] at h; cases h
    | cons y ys =>
        rw [hsort] at h
        have hyp : y = p := by simpa using h
        subst hyp
        have hpmem : y ∈ (Mgr.getActiveProxies m).filter
            (fun p => p.assignedAccounts < p.maxAccounts) :=
          (mem_sSort _ y _).mp (hsort ▸ List.mem_cons_self y ys)
        have hp1 := List.mem_filter.mp hpmem
        have hp2 : y ∈ m.proxies.filter
            (fun p => p.status == ProxyStatus.active) :=
          (mem_sSort _ y _).mp hp1.1
        have hp3 := List.mem_filter.mp hp2
        have hcap : y.assignedAccounts < y.maxAccounts := by
          have := hp1.2
          simpa using this
        have hact : y.status = ProxyStatus.active := by
          have := hp3.2
          simpa using this
        refine ⟨hp3.1, hact, hcap, ?_⟩
        intro q hq hqs hqc
        have hqmem : q ∈ (Mgr.getActiveProxies m).filter
            (fun p => p.assignedAccounts < p.maxAccounts) := by
          apply List.mem_filter.mpr
          refine ⟨?_, by simpa using hqc⟩
          apply (mem_sSort _ q _).mpr
          exact List.mem_filter.mpr ⟨hq, by simpa using hqs⟩
        have hmin := sSort_head_min _ Mgr.ltAssigned_asymm
          Mgr.ltAssigned_negTrans hsort q hqmem
        have : ¬ (q.assignedAccounts < y.assignedAccounts) := by
          simpa [Mgr.ltAssigned] using hmin
        omega
  · intro m h q hq hqs
    by_contra hc
    push_neg at hc
    unfold Mgr.findAvailableProxy at h
    have hqmem : q ∈ (Mgr.getActiveProxies m).filter
        (fun p => p.assignedAccounts < p.maxAccounts) := by
      apply List.mem_filter.mpr
      refine ⟨?_, by simpa using hc⟩
      apply (mem_sSort _ q _).mpr
      exact List.mem_filter.mpr ⟨hq, by simpa using hqs⟩
    cases hsort : ControlCenter.sSort
        (fun a b => a.assignedAccounts < b.assignedAccounts)
        ((Mgr.getActiveProxies m).filter
          (fun p => p.assignedAccounts < p.maxAccounts)) with
    | nil =>
        have : q ∈ ([] : List Proxy) := by
          rw [← hsort]
          exact (mem_sSort _ q _).mpr hqmem
        cases this
    | cons y ys => rw [hsort] at h; cases h

/-- Low-health / high-health tied fixtures for the C3 counterexample. -/
def mgrP1 : Proxy :=
  { id := "p1", status := ProxyStatus.active, healthScore := 50,
    maxAccounts := 2, assignedAccounts := 0, avgResponseTime := 0,
    successRate := 100, lastTested := none }

def mgrP2 : Proxy :=
  { id := "p2", status := ProxyStatus.active, healthScore := 100,
    maxAccounts := 2, assignedAccounts := 0, avgResponseTime := 0,
    successRate := 100, lastTested := none }

def mgrFix : Mgr.MgrState :=
  { accounts := [], proxies := [mgrP1, mgrP2], incidents := [], nextId := 0 }

/-- C3, counterexample to the claim as stated: the manager's
`findAvailableProxy` (used by the manager's `createAccount` and
`failoverAccount`) returns `p1` even though `p2` is tied on
`assignedAccounts` with a strictly higher `healthScore`. -/
theorem c3_find_available_proxy_counterexample :
    Mgr.findAvailableProxy mgrFix = some mgrP1 ∧
    mgrP2 ∈ mgrFix.proxies ∧ mgrP2.status = ProxyStatus.active ∧
    mgrP2.assignedAccounts < mgrP2.maxAccounts ∧
    mgrP2.assignedAccounts = mgrP1.assignedAccounts ∧
    mgrP1.healthScore < mgrP2.healthScore := by
  refine ⟨rfl, by decide, rfl, by decide, rfl, by decide⟩

/-- Witness for C3 using the concrete one-proxy database fixture. -/
theorem c3_find_available_proxy_witness :
    proxyFix ∈ dbFix9.proxies ∧ proxyFix.status = ProxyStatus.active ∧
      proxyFix.assignedAccounts < proxyFix.maxAccounts := by
  have h := c3_find_available_proxy.1 dbFix9 proxyFix (by rfl)
  exact ⟨h.1, h.2.1, h.2.2.1⟩

-- ============================================================
-- Claim C6: checkAllProxies transitions
-- ============================================================

namespace Db

/-- Whether a probe outcome counts as not working. -/
def probeFails : ProbeOutcome → Bool
  | ProbeOutcome.response _ ok _ => !ok
  | ProbeOutcome.thrown _ _ => true

/-- Incident predicate: an open-or-not `proxy_failure` record for the
given proxy. -/
def isProxyFailureFor (pid : String) (i : Incident) : Bool :=
  i.itype == IncidentType.proxy_failure && i.proxyId == some pid

end Db

/-- C6 (amended).  One `checkAllProxies` run over a single-proxy state:
when the probe fails, the proxy's status becomes `failed`, its
`healthScore` drops by 20 (floor 0) and one new `proxy_failure` incident
is opened — this happens on *every* failing run, not only on the
active→failed transition; when the probe passes and the proxy was
`failed`, it transitions back to `active` with `healthScore` raised by 10
(ceiling 100) and no incident is opened. -/
theorem c6_check_all_proxies :
    ∀ (p : Proxy) (accs : List Account) (maps : List Mapping)
      (incs : List Incident) (lgs : List HealthLog) (nid now : Nat)
      (outcome : Db.ProbeOutcome),
      (Db.probeFails outcome = true →
        (Db.checkAllProxies ⟨[p], accs, maps, incs, lgs, nid⟩ now
            (fun _ => outcome)).proxies.map
          (fun q => (q.status, q.healthScore)) =
          [(ProxyStatus.failed, max 0 (p.healthScore - 20))]) ∧
      (Db.probeFails outcome = true →
        (Db.checkAllProxies ⟨[p], accs, maps, incs, lgs, nid⟩ now
            (fun _ => outcome)).incidents.countP (Db.isProxyFailureFor p.id) =
          incs.countP (Db.isProxyFailureFor p.id) + 1) ∧
      (Db.probeFails outcome = false → p.status = ProxyStatus.failed →
        (Db.checkAllProxies ⟨[p], accs, maps, incs, lgs, nid⟩ now
            (fun _ => outcome)).proxies.map
          (fun q => (q.status, q.healthScore)) =
          [(ProxyStatus.active, min 100 (p.healthScore + 10))]) ∧
      (Db.probeFails outcome = false →
        (Db.checkAllProxies ⟨[p], accs, maps, incs, lgs, nid⟩ now
            (fun _ => outcome)).incidents = incs) := by
  intro p accs maps incs lgs nid now outcome
  cases outcome with
  | response rt ok code =>
      cases ok with
      | true =>
          refine ⟨fun h => by simp [Db.probeFails] at h,
                  fun h => by simp [Db.probeFails] at h, ?_, ?_⟩
          · intro _ hfailed
            simp [Db.checkAllProxies, Db.checkProxiesGo, Db.testProxy,
              Db.updateProxyF, Db.logHealthCheck, hfailed]
          · intro _
            simp only [Db.checkAllProxies, Db.checkProxiesGo, Db.testProxy,
              Db.updateProxyF, Db.logHealthCheck]
            simp
            split
            all_goals rfl
      | false =>
          refine ⟨?_, ?_, fun h => by simp [Db.probeFails] at h,
                  fun h => by simp [Db.probeFails] at h⟩
          · intro _
            simp [Db.checkAllProxies, Db.checkProxiesGo, Db.testProxy,
              Db.updateProxyF, Db.createIncident, Db.logHealthCheck]
          · intro _
            simp [Db.checkAllProxies, Db.checkProxiesGo, Db.testProxy,
              Db.updateProxyF, Db.createIncident, Db.logHealthCheck,
              Db.isProxyFailureFor, List.countP_append]
  | thrown rt msg =>
      refine ⟨?_, ?_, fun h => by simp [Db.probeFails] at h,
              fun h => by simp [Db.probeFails] at h⟩
      · intro _
        simp [Db.checkAllProxies, Db.checkProxiesGo, Db.testProxy,
          Db.updateProxyF, Db.createIncident, Db.logHealthCheck]
      · intro _
        simp [Db.checkAllProxies, Db.checkProxiesGo, Db.testProxy,
          Db.updateProxyF, Db.createIncident, Db.logHealthCheck,
          Db.isProxyFailureFor, List.countP_append]

/-- The 80-health active proxy of the specification's C6 scenario. -/
def p80 : Proxy :=
  { id := "p1", status := ProxyStatus.active, healthScore := 80,
    maxAccounts := 2, assignedAccounts := 0, avgResponseTime := 0,
    successRate := 100, lastTested := none }

def dbFix6 : Db.DbState :=
  { proxies := [p80], accounts := [], mappings := [], incidents := [],
    logs := [], nextId := 0 }

/-- A probe that always throws. -/
def alwaysDown : String → Db.ProbeOutcome :=
  fun _ => Db.ProbeOutcome.thrown 100 "ECONNREFUSED"

/-- Witness for C6: a failing run on the concrete scenario state. -/
theorem c6_check_all_proxies_witness :
    (Db.checkAllProxies dbFix6 1 alwaysDown).proxies.map
      (fun q => (q.status, q.healthScore)) =
      [(ProxyStatus.failed, max 0 ((80 : Int) - 20))] :=
  (c6_check_all_proxies p80 [] [] [] [] 0 1
    (Db.ProbeOutcome.thrown 100 "ECONNREFUSED")).1 rfl

/-- C6, counterexample to the claim as stated: after three consecutive
failing `checkAllProxies` runs starting from `active`/`healthScore 80`,
the stored health score is 20 — reduced by 20 on *each* failing run, not
only on the first transition (which would leave 60) — and three
`proxy_failure` incidents are open, not one. -/
theorem c6_check_all_proxies_counterexample :
    ((Db.checkAllProxies
        (Db.checkAllProxies (Db.checkAllProxies dbFix6 1 alwaysDown) 2
          alwaysDown) 3 alwaysDown).proxies.map
      (fun q => (q.status, q.healthScore))) = [(ProxyStatus.failed, 20)] ∧
    (Db.checkAllProxies
        (Db.checkAllProxies (Db.checkAllProxies dbFix6 1 alwaysDown) 2
          alwaysDown) 3 alwaysDown).incidents.countP
      (Db.isProxyFailureFor "p1") = 3 ∧
    (20 : Int) ≠ 60 ∧ (3 : Nat) ≠ 1 := by
  refine ⟨by decide, by decide, by decide, by decide⟩

-- ============================================================
-- Claim C2: createAccount atomicity
-- ============================================================

/-- C2 (amended).  `AccountProxyMapping.createAccount` is all-or-nothing:
on success the account is stored with `proxyId` set to the selected
proxy, exactly that proxy's `assignedAccounts` is incremented by one, and
exactly one active mapping is appended, with incidents untouched; on any
failure the state is completely unchanged.  When the config's id and
twitter handle are fresh, failure happens exactly when no proxy is
available and then carries the no-capacity error; a duplicate id or
handle also fails cleanly but with the constraint error instead. -/
theorem c2_create_account_atomic :
    ∀ (s : Db.DbState) (config : Db.AccountConfig),
      ((Db.mappingCreateAccount s config).1.success = false →
        (Db.mappingCreateAccount s config).2 = s) ∧
      (∀ p, Db.findAvailableProxy s = some p →
        (Db.mappingCreateAccount s config).1.success = true →
        (Db.mappingCreateAccount s config).2 =
          { proxies := s.proxies.map (fun q =>
              if q.id == p.id then
                { q with assignedAccounts := q.assignedAccounts + 1 }
              else q),
            accounts := s.accounts ++ [Db.newAccount config p.id],
            mappings := s.mappings ++
              [{ id := s.nextId, accountId := config.id, proxyId := p.id,
                 isActive := true, previousProxyId := none,
                 reassignmentReason := none }],
            incidents := s.incidents, logs := s.logs,
            nextId := s.nextId + 1 }) ∧
      ((s.accounts.all (fun b =>
          b.id != config.id && b.twitterHandle != config.twitterHandle)) = true →
        ((Db.mappingCreateAccount s config).1.success = false ↔
          Db.findAvailableProxy s = none) ∧
        ((Db.mappingCreateAccount s config).1.success = false →
          (Db.mappingCreateAccount s config).1.error = some Db.noProxiesMsg)) := by
  intro s config
  cases hfind : Db.findAvailableProxy s with
  | none =>
      refine ⟨?_, ?_, ?_⟩
      · intro _
        simp [Db.mappingCreateAccount, hfind]
      · intro p hp
        cases hp
      · intro _
        constructor
        · simp [Db.mappingCreateAccount, hfind]
        · intro _
          simp [Db.mappingCreateAccount, hfind]
  | some proxy =>
      have hspec := Db.findAvailableProxy_some hfind
      have hcap : ¬ (proxy.maxAccounts ≤ proxy.assignedAccounts) := by
        have := hspec.2.2.1
        omega
      by_cases hid : ∃ b ∈ s.accounts, b.id = config.id
      · -- duplicate id: the insert throws, caught into a clean failure
        refine ⟨?_, ?_, ?_⟩
        · intro _
          simp [Db.mappingCreateAccount, hfind, hcap, Db.dbCreateAccount, Db.newAccount, hid]
        · intro p hp hsucc
          cases hp
          exfalso
          simp [Db.mappingCreateAccount, hfind, hcap, Db.dbCreateAccount,
            Db.newAccount, hid] at hsucc
        · intro hfresh
          exfalso
          obtain ⟨b, hb, hbid⟩ := hid
          rw [List.all_eq_true] at hfresh
          have := hfresh b hb
          simp only [Bool.and_eq_true, bne_iff_ne, ne_eq] at this
          exact this.1 hbid
      · by_cases hhandle : ∃ b ∈ s.accounts, b.twitterHandle = config.twitterHandle
        · -- duplicate twitter handle: same clean failure
          refine ⟨?_, ?_, ?_⟩
          · intro _
            simp [Db.mappingCreateAccount, hfind, hcap, Db.dbCreateAccount,
              Db.newAccount, hid, hhandle]
          · intro p hp hsucc
            cases hp
            exfalso
            simp [Db.mappingCreateAccount, hfind, hcap, Db.dbCreateAccount,
              Db.newAccount, hid, hhandle] at hsucc
          · intro hfresh
            exfalso
            obtain ⟨b, hb, hbh⟩ := hhandle
            rw [List.all_eq_true] at hfresh
            have := hfresh b hb
            simp only [Bool.and_eq_true, bne_iff_ne, ne_eq] at this
            exact this.2 hbh
        · -- fresh id and handle: the insert succeeds with all three effects
          refine ⟨?_, ?_, ?_⟩
          · intro hsucc
            exfalso
            simp [Db.mappingCreateAccount, hfind, hcap, Db.dbCreateAccount,
              Db.newAccount, hid, hhandle] at hsucc
          · intro p hp _
            cases hp
            simp [Db.mappingCreateAccount, hfind, hcap, Db.dbCreateAccount,
              hid, hhandle, Db.incrementProxyAccountCount, Db.updateProxyF,
              Db.createMapping, Db.newAccount]
          · intro _
            constructor
            · constructor
              · intro hsucc
                exfalso
                simp [Db.mappingCreateAccount, hfind, hcap, Db.dbCreateAccount,
                  Db.newAccount, hid, hhandle] at hsucc
              · intro hn
                cases hn
            · intro hsucc
              exfalso
              simp [Db.mappingCreateAccount, hfind, hcap, Db.dbCreateAccount,
                Db.newAccount, hid, hhandle] at hsucc

/-- Occupied-id fixture for the C2 counterexample: proxy `p1` has spare
capacity and account `a1` already exists. -/
def cxProxy : Proxy :=
  { id := "p1", status := ProxyStatus.active, healthScore := 100,
    maxAccounts := 2, assignedAccounts := 1, avgResponseTime := 0,
    successRate := 100, lastTested := none }

def cxAccount : Account :=
  { id := "a1", name := "n", twitterHandle := "h", phase := Phase.warmup,
    day := 1, status := AccountStatus.active, healthScore := 100,
    proxyId := "p1", actionsToday := 0, spamScore := 0,
    dailyActionLimit := 10 }

def cxMapping : Mapping :=
  { id := 0, accountId := "a1", proxyId := "p1", isActive := true,
    previousProxyId := none, reassignmentReason := none }

def dbFix2 : Db.DbState :=
  { proxies := [cxProxy], accounts := [cxAccount], mappings := [cxMapping],
    incidents := [], logs := [], nextId := 1 }

def dupConfig : Db.AccountConfig :=
  { id := "a1", name := "n2", twitterHandle := "h2",
    adspowerProfileId := "ap" }

def freshConfig : Db.AccountConfig :=
  { id := "a2", name := "n2", twitterHandle := "h2",
    adspowerProfileId := "ap" }

/-- C2, counterexample to the claim as stated: with spare capacity
available but a duplicate account id, `createAccount` fails with a
uniqueness-constraint error, not the no-capacity error the claim says
every failure carries (the state is still unchanged). -/
theorem c2_create_account_counterexample :
    (Db.mappingCreateAccount dbFix2 dupConfig).1.success = false ∧
    (Db.mappingCreateAccount dbFix2 dupConfig).1.error ≠
      some Db.noProxiesMsg ∧
    (Db.mappingCreateAccount dbFix2 dupConfig).2 = dbFix2 ∧
    (Db.findAvailableProxy dbFix2).isSome = true := by
  refine ⟨by decide, by decide, by decide, by decide⟩

/-- Witness for C2: a fresh config on the occupied fixture succeeds. -/
theorem c2_create_account_atomic_witness :
    (Db.mappingCreateAccount dbFix2 freshConfig).1.success = true := by
  have h := ((c2_create_account_atomic dbFix2 freshConfig).2.2 (by decide)).1
  by_contra hc
  have hfalse : (Db.mappingCreateAccount dbFix2 freshConfig).1.success = false := by
    cases hsucc : (Db.mappingCreateAccount dbFix2 freshConfig).1.success
    · rfl
    · exact absurd hsucc hc
  exact absurd (h.mp hfalse) (by decide)

-- ============================================================
-- Claim C7: onboarding workflow failure semantics
-- ============================================================

namespace Mgr

theorem find_replace (l : List Account) (a : Account)
    (h : l.any (fun b => b.id == a.id) = true) :
    (l.map (fun b => if b.id == a.id then a else b)).find?
      (fun b => b.id == a.id) = some a := by
  induction l with
  | nil => simp at h
  | cons x xs ih =>
      rw [List.map_cons]
      by_cases hx : (x.id == a.id) = true
      · rw [if_pos hx]
        exact List.find?_cons_of_pos _ (by simp)
      · rw [if_neg hx]
        have h1 : xs.any (fun b => b.id == a.id) = true := by
          simp only [List.any_cons, hx, Bool.false_or] at h
          exact h
        have hx1 : (x.id == a.id) = false := by simpa using hx
        simp only [List.find?_cons, hx1]
        exact ih h1

theorem find_append_fresh (l : List Account) (a : Account)
    (h : l.any (fun b => b.id == a.id) = false) :
    (l ++ [a]).find? (fun b => b.id == a.id) = some a := by
  induction l with
  | nil =>
      rw [List.nil_append]
      exact List.find?_cons_of_pos _ (by simp)
  | cons x xs ih =>
      simp only [List.any_cons, Bool.or_eq_false_iff] at h
      rw [List.cons_append]
      simp only [List.find?_cons, h.1]
      exact ih h.2

/-- `Map.set` followed by lookup of the stored key yields the stored
account. -/
theorem mapSet_find (l : List Account) (a : Account) :
    (mapSet l a).find? (fun b => b.id == a.id) = some a := by
  unfold mapSet
  by_cases h : l.any (fun b => b.id == a.id) = true
  · rw [if_pos h]
    exact find_replace l a h
  · rw [if_neg h]
    exact find_append_fresh l a (by simpa using h)

end Mgr

namespace Wf

open Mgr

theorem runSteps_cons_ok (w : Workflow) (nid : Nat) (m : MgrState)
    (name : String) (op : StepOp) (rest : List (String × StepOp))
    {m1 : MgrState} (hop : op m = Except.ok m1) :
    runSteps w nid m ((name, op) :: rest) =
      runSteps
        { w with steps := w.steps ++
            [{ id := genId nid, name := name,
               status := StepStatus.completed, error := none }] }
        (nid + 1) m1 rest := by
  simp only [runSteps, executeStep, hop]

theorem runSteps_cons_err (w : Workflow) (nid : Nat) (m : MgrState)
    (name : String) (op : StepOp) (rest : List (String × StepOp))
    {e : String} (hop : op m = Except.error e) :
    runSteps w nid m ((name, op) :: rest) =
      ({ w with steps := w.steps ++
          [{ id := genId nid, name := name,
             status := StepStatus.failed, error := some e }] },
       nid + 1, m, some e) := by
  simp only [runSteps, executeStep, hop]

end Wf

/-- C7 (amended).  For an onboarding run whose `health_check` step throws
after `create_account` completed (the step operation is abstracted here
because the concrete `health_check` body catches every probe error inside
`manager.testProxy` and therefore cannot actually throw): the workflow
ends `failed`, the created Account still exists (no rollback; this
in-memory manager keeps no Mapping records), and exactly one
`manual_intervention` incident is appended — titled after the workflow
*type* (`"Workflow onboarding failed"`) with the step error as
description, carrying no reference to the workflow id. -/
theorem c7_onboarding_failure :
    ∀ (st : Wf.WfState) (config : Wf.OnboardingConfig) (e : String) (p : Proxy),
      config.accountId.isEmpty = false → config.name.isEmpty = false →
      config.twitterHandle.isEmpty = false →
      config.adspowerProfileId.isEmpty = false →
      Mgr.findAvailableProxy st.mgr = some p → p.id.isEmpty = false →
      (Wf.onboardAccountWith st config (fun _ => Except.error e)).1.status =
          Wf.WfStatus.failed ∧
      ((Wf.onboardAccountWith st config (fun _ => Except.error e)).1.steps.map
          (fun step => (step.name, step.status))) =
        [("validate", Wf.StepStatus.completed),
         ("check_proxies", Wf.StepStatus.completed),
         ("create_account", Wf.StepStatus.completed),
         ("verify_assignment", Wf.StepStatus.completed),
         ("health_check", Wf.StepStatus.failed)] ∧
      Mgr.getAccount
          (Wf.onboardAccountWith st config (fun _ => Except.error e)).2.mgr
          config.accountId =
        some { Wf.onboardAccountData config with proxyId := p.id } ∧
      (Wf.onboardAccountWith st config (fun _ => Except.error e)).2.mgr.incidents =
        st.mgr.incidents ++
          [{ id := st.mgr.nextId, itype := IncidentType.manual_intervention,
             severity := Severity.high, accountId := none, proxyId := none,
             title := "Workflow onboarding failed", description := e,
             oldProxyId := none, newProxyId := none,
             istatus := IncidentStatus.open, resolution := none,
             resolvedBy := none }] := by
  intro st config e p h1 h2 h3 h4 hfind h5
  have hval : Wf.validateStep config st.mgr = Except.ok st.mgr := by
    simp [Wf.validateStep, h1, h2, h3, h4]
  have hchk : Wf.checkProxiesStep st.mgr = Except.ok st.mgr := by
    simp [Wf.checkProxiesStep, hfind]
  have hcre : Wf.createAccountStep config st.mgr = Except.ok
      { accounts := Mgr.mapSet st.mgr.accounts
          { Wf.onboardAccountData config with proxyId := p.id },
        proxies := st.mgr.proxies.map (fun q =>
          if q.id == p.id then
            { q with assignedAccounts := q.assignedAccounts + 1 }
          else q),
        incidents := st.mgr.incidents, nextId := st.mgr.nextId } := by
    simp [Wf.createAccountStep, Mgr.createAccount, hfind]
  have haccount :
      Mgr.getAccount
        { accounts := Mgr.mapSet st.mgr.accounts
            { Wf.onboardAccountData config with proxyId := p.id },
          proxies := st.mgr.proxies.map (fun q =>
            if q.id == p.id then
              { q with assignedAccounts := q.assignedAccounts + 1 }
            else q),
          incidents := st.mgr.incidents, nextId := st.mgr.nextId }
        config.accountId =
      some { Wf.onboardAccountData config with proxyId := p.id } := by
    unfold Mgr.getAccount
    exact Mgr.mapSet_find st.mgr.accounts
      { Wf.onboardAccountData config with proxyId := p.id }
  have hver : Wf.verifyAssignmentStep config
      { accounts := Mgr.mapSet st.mgr.accounts
          { Wf.onboardAccountData config with proxyId := p.id },
        proxies := st.mgr.proxies.map (fun q =>
          if q.id == p.id then
            { q with assignedAccounts := q.assignedAccounts + 1 }
          else q),
        incidents := st.mgr.incidents, nextId := st.mgr.nextId } =
      Except.ok
      { accounts := Mgr.mapSet st.mgr.accounts
          { Wf.onboardAccountData config with proxyId := p.id },
        proxies := st.mgr.proxies.map (fun q =>
          if q.id == p.id then
            { q with assignedAccounts := q.assignedAccounts + 1 }
          else q),
        incidents := st.mgr.incidents, nextId := st.mgr.nextId } := by
    simp only [Wf.verifyAssignmentStep, haccount]
    simp [h5]
  have hrun : Wf.onboardAccountWith st config (fun _ => Except.error e) =
      Wf.onboardAccountWith st config (fun _ => Except.error e) := rfl
  unfold Wf.onboardAccountWith
  simp only [Wf.onboardSteps]
  rw [Wf.runSteps_cons_ok _ _ _ _ _ _ hval,
      Wf.runSteps_cons_ok _ _ _ _ _ _ hchk,
      Wf.runSteps_cons_ok _ _ _ _ _ _ hcre,
      Wf.runSteps_cons_ok _ _ _ _ _ _ hver,
      Wf.runSteps_cons_err _ _ _ _ _ _ (rfl : (fun _ => Except.error e)
        ({ accounts := Mgr.mapSet st.mgr.accounts
             { Wf.onboardAccountData config with proxyId := p.id },
           proxies := st.mgr.proxies.map (fun q =>
             if q.id == p.id then
               { q with assignedAccounts := q.assignedAccounts + 1 }
             else q),
           incidents := st.mgr.incidents,
           nextId := st.mgr.nextId } : Mgr.MgrState) =
        Except.error e)]
  refine ⟨rfl, by simp, ?_, ?_⟩
  · exact haccount
  · rfl

/-- Fixtures for the C7 counterexample run. -/
def wfFix : Wf.WfState :=
  { mgr := { accounts := [], proxies := [mgrP1], incidents := [], nextId := 0 },
    workflows := [], nextId := 0 }

def wfConfig : Wf.OnboardingConfig :=
  { accountId := "a1", name := "n", twitterHandle := "h",
    adspowerProfileId := "ap", initialPhase := none }

/-- C7, counterexample to the claim as stated: in the claimed scenario
(health_check throws after create_account completed) the workflow fails
and exactly one `manual_intervention` incident is created, but that
incident does not reference the workflow id anywhere — not in its entity
fields nor in its title or description. -/
theorem c7_onboarding_counterexample :
    (Wf.onboardAccountWith wfFix wfConfig
        (fun _ => Except.error "connection timeout")).1.status =
      Wf.WfStatus.failed ∧
    ((Wf.onboardAccountWith wfFix wfConfig
        (fun _ => Except.error "connection timeout")).1.steps.map
      (fun step => (step.name, step.status))) =
      [("validate", Wf.StepStatus.completed),
       ("check_proxies", Wf.StepStatus.completed),
       ("create_account", Wf.StepStatus.completed),
       ("verify_assignment", Wf.StepStatus.completed),
       ("health_check", Wf.StepStatus.failed)] ∧
    (Mgr.getAccount (Wf.onboardAccountWith wfFix wfConfig
        (fun _ => Except.error "connection timeout")).2.mgr "a1").isSome =
      true ∧
    (Wf.onboardAccountWith wfFix wfConfig
        (fun _ => Except.error "connection timeout")).2.mgr.incidents.countP
      (fun i => i.itype == IncidentType.manual_intervention) = 1 ∧
    ((Wf.onboardAccountWith wfFix wfConfig
        (fun _ => Except.error "connection timeout")).2.mgr.incidents.all
      (fun i => !(Wf.referencesWorkflow i
        (Wf.onboardAccountWith wfFix wfConfig
          (fun _ => Except.error "connection timeout")).1.id))) = true := by
  refine ⟨by decide, by decide, by decide, by decide, by decide⟩

/-- Witness for C7 at the concrete fixture. -/
theorem c7_onboarding_failure_witness :
    (Wf.onboardAccountWith wfFix wfConfig
        (fun _ => Except.error "connection timeout")).1.status =
      Wf.WfStatus.failed :=
  (c7_onboarding_failure wfFix wfConfig "connection timeout" mgrP1
    rfl rfl rfl rfl rfl rfl).1

-- ============================================================
-- Consistency preservation (claims C1 and C8)
-- ============================================================

namespace Db

/-- Consistency only reads `proxies`, `accounts` and `mappings`. -/
theorem consistent_of_eq {s s' : DbState} (h1 : s'.proxies = s.proxies)
    (h2 : s'.accounts = s.accounts) (h3 : s'.mappings = s.mappings)
    (hc : Consistent s) : Consistent s' := by
  obtain ⟨c1, c2, c3, c4, c5, c6, c7, c8⟩ := hc
  refine ⟨?_, ?_, ?_, ?_, ?_, ?_, ?_, ?_⟩
  · rw [h1]; exact c1
  · rw [h2]; exact c2
  · intro a ha
    rw [h2] at ha
    obtain ⟨p, hp, hpid⟩ := c3 a ha
    exact ⟨p, by rw [h1]; exact hp, hpid⟩
  · intro p hp
    rw [h1] at hp
    exact c4 p hp
  · intro p hp
    rw [h1] at hp
    unfold boundCount
    rw [h2]
    exact c5 p hp
  · intro a ha
    rw [h2] at ha
    unfold activeMappingCount
    rw [h3]
    exact c6 a ha
  · intro a ha m hm
    rw [h2] at ha
    rw [h3] at hm
    exact c7 a ha m hm
  · intro m hm hact
    rw [h3] at hm
    obtain ⟨a, ha, haid⟩ := c8 m hm hact
    exact ⟨a, by rw [h2]; exact ha, haid⟩

/-- A proxy update that touches neither `id` nor the capacity fields
(status / health / metric writes) preserves consistency. -/
theorem consistent_updateProxyF_meta {s : DbState} {pid : String}
    {f : Proxy → Proxy}
    (hid : ∀ x, (f x).id = x.id)
    (hassn : ∀ x, (f x).assignedAccounts = x.assignedAccounts)
    (hmax : ∀ x, (f x).maxAccounts = x.maxAccounts)
    (hc : Consistent s) : Consistent (updateProxyF s pid f) := by
  obtain ⟨c1, c2, c3, c4, c5, c6, c7, c8⟩ := hc
  have hg : ∀ x : Proxy,
      (if (x.id == pid) = true then f x else x).id = x.id := by
    intro x
    by_cases hx : (x.id == pid) = true
    · rw [if_pos hx]; exact hid x
    · rw [if_neg hx]
  have hids : ((updateProxyF s pid f).proxies.map (fun p => p.id)) =
      s.proxies.map (fun p => p.id) := by
    unfold updateProxyF
    rw [List.map_map]
    apply List.map_congr_left
    intro x _
    exact hg x
  refine ⟨?_, c2, ?_, ?_, ?_, c6, c7, c8⟩
  · rw [hids]; exact c1
  · intro a ha
    obtain ⟨p, hp, hpid⟩ := c3 a ha
    refine ⟨if (p.id == pid) = true then f p else p, ?_, ?_⟩
    · exact List.mem_map_of_mem _ hp
    · rw [hg p]; exact hpid
  · intro p hp
    obtain ⟨x, hx, rfl⟩ := List.mem_map.mp hp
    by_cases hxid : (x.id == pid) = true
    · rw [if_pos hxid, hassn, hmax]; exact c4 x hx
    · rw [if_neg hxid]; exact c4 x hx
  · intro p hp
    obtain ⟨x, hx, rfl⟩ := List.mem_map.mp hp
    have hbc : boundCount (updateProxyF s pid f)
        (if (x.id == pid) = true then f x else x).id = boundCount s x.id := by
      unfold boundCount updateProxyF
      rw [hg x]
    rw [hbc]
    by_cases hxid : (x.id == pid) = true
    · rw [if_pos hxid, hassn]
      have := c5 x hx
      rw [hg x] at *
      simpa [if_pos hxid] using this
    · rw [if_neg hxid]
      exact c5 x hx

/-- Keys of `updateProxyF` are unchanged when `f` preserves `id`. -/
theorem proxies_ids_updateF (s : DbState) (pid : String) (f : Proxy → Proxy)
    (hf : ∀ x, (f x).id = x.id) :
    ((updateProxyF s pid f).proxies.map (fun p => p.id)) =
      s.proxies.map (fun p => p.id) := by
  unfold updateProxyF
  rw [List.map_map]
  apply List.map_congr_left
  intro x _
  by_cases hx : (x.id == pid) = true
  · simp only [Function.comp_apply, if_pos hx]; exact hf x
  · simp only [Function.comp_apply, if_neg hx]

/-- A keyed, id-preserving update keeps the proxy-id list unchanged. -/
theorem nodup_ids_map_update (l : List Proxy) (pid : String)
    (f : Proxy → Proxy) (hf : ∀ x, (f x).id = x.id)
    (h : (l.map (fun p => p.id)).Nodup) :
    ((l.map (fun x => if x.id == pid then f x else x)).map
      (fun p => p.id)).Nodup := by
  rw [List.map_map]
  have hcong : l.map ((fun p : Proxy => p.id) ∘
      (fun x => if x.id == pid then f x else x)) =
      l.map (fun p : Proxy => p.id) := by
    apply List.map_congr_left
    intro x _
    by_cases hx : (x.id == pid) = true
    · simp only [Function.comp_apply, if_pos hx]; exact hf x
    · simp only [Function.comp_apply, if_neg hx]
  rw [hcong]
  exact h

/-- Transfer an id-witness through a keyed proxy update. -/
theorem exists_id_map_update (l : List Proxy) (pid : String)
    (f : Proxy → Proxy) (hf : ∀ x, (f x).id = x.id) (pid' : String)
    (h : ∃ q ∈ l, q.id = pid') :
    ∃ q ∈ l.map (fun x => if x.id == pid then f x else x), q.id = pid' := by
  obtain ⟨q, hq, hqid⟩ := h
  refine ⟨if (q.id == pid) = true then f q else q, List.mem_map_of_mem _ hq, ?_⟩
  by_cases hx : (q.id == pid) = true
  · rw [if_pos hx, hf]; exact hqid
  · rw [if_neg hx]; exact hqid

/-- `DatabaseClient.createAccount` preserves consistency: the insert is
guarded by uniqueness, the chosen proxy's counter is incremented along
with the account append, and the fresh active mapping keeps the
one-active invariant. -/
theorem consistent_dbCreateAccount {s : DbState} {a : Account} {s' : DbState}
    (hc : Consistent s)
    (hok : dbCreateAccount s a = Except.ok s')
    (p : Proxy) (hp : p ∈ s.proxies) (hpid : p.id = a.proxyId)
    (hcap : p.assignedAccounts < p.maxAccounts) :
    Consistent s' := by
  obtain ⟨c1, c2, c3, c4, c5, c6, c7, c8⟩ := hc
  unfold dbCreateAccount at hok
  by_cases hidg : (s.accounts.any (fun b => b.id == a.id)) = true
  · rw [if_pos hidg] at hok; cases hok
  rw [if_neg hidg] at hok
  by_cases hhg : (s.accounts.any (fun b => b.twitterHandle == a.twitterHandle)) = true
  · rw [if_pos hhg] at hok; cases hok
  rw [if_neg hhg] at hok
  have hidfresh : ∀ b ∈ s.accounts, b.id ≠ a.id := by
    intro b hb hbad
    exact hidg (List.any_eq_true.mpr ⟨b, hb, by simp [hbad]⟩)
  cases hok
  have c5b : ∀ q ∈ s.proxies,
      q.assignedAccounts = List.countP (fun b => b.proxyId == q.id) s.accounts :=
    c5
  have c6b : ∀ b ∈ s.accounts,
      List.countP (fun m => m.accountId == b.id && m.isActive) s.mappings = 1 :=
    c6
  have hnoactive : ∀ m ∈ s.mappings,
      ¬ ((m.accountId == a.id && m.isActive) = true) := by
    intro m hm hbad
    rw [Bool.and_eq_true] at hbad
    obtain ⟨b0, hb0, hb0id⟩ := c8 m hm hbad.2
    exact hidfresh b0 hb0 (by rw [hb0id, beq_iff_eq.mp hbad.1])
  have hbc : ∀ pid', List.countP (fun b : Account => b.proxyId == pid')
      (s.accounts ++ [a]) =
      List.countP (fun b : Account => b.proxyId == pid') s.accounts +
        (if (a.proxyId == pid') = true then 1 else 0) := by
    intro pid'
    rw [List.countP_append]
    simp only [List.countP_cons, List.countP_nil]
    by_cases hx : (a.proxyId == pid') = true
    · simp [hx]
    · simp [hx]
  show Consistent
    { proxies := s.proxies.map (fun x => if x.id == a.proxyId
        then { x with assignedAccounts := x.assignedAccounts + 1 } else x),
      accounts := s.accounts ++ [a],
      mappings := s.mappings ++
        [{ id := s.nextId, accountId := a.id, proxyId := a.proxyId,
           isActive := true, previousProxyId := none,
           reassignmentReason := none }],
      incidents := s.incidents, logs := s.logs, nextId := s.nextId + 1 }
  unfold Consistent boundCount activeMappingCount
  dsimp only
  refine ⟨?_, ?_, ?_, ?_, ?_, ?_, ?_, ?_⟩
  · -- proxy ids Nodup
    exact nodup_ids_map_update s.proxies a.proxyId
      (fun q => { q with assignedAccounts := q.assignedAccounts + 1 })
      (fun x => rfl) c1
  · -- account ids Nodup
    rw [List.map_append]
    rw [List.nodup_append]
    refine ⟨c2, by simp, ?_⟩
    intro x hx hx2
    simp only [List.map_cons, List.map_nil, List.mem_singleton] at hx2
    obtain ⟨b, hb, hbid⟩ := List.mem_map.mp hx
    exact hidfresh b hb (by rw [hbid, hx2])
  · -- every account's proxy exists
    intro b hb
    rcases List.mem_append.mp hb with hb1 | hb2
    · exact exists_id_map_update s.proxies a.proxyId
        (fun q => { q with assignedAccounts := q.assignedAccounts + 1 })
        (fun x => rfl) b.proxyId (c3 b hb1)
    · have hba : b = a := by simpa using hb2
      subst hba
      exact exists_id_map_update s.proxies b.proxyId
        (fun q => { q with assignedAccounts := q.assignedAccounts + 1 })
        (fun x => rfl) b.proxyId ⟨p, hp, hpid⟩
  · -- capacity
    intro q hq
    obtain ⟨x, hx, rfl⟩ := List.mem_map.mp hq
    by_cases hxid : (x.id == a.proxyId) = true
    · have hxp : x = p := by
        apply key_unique (fun q : Proxy => q.id) c1 hx hp
        rw [hpid]
        exact beq_iff_eq.mp hxid
      subst hxp
      rw [if_pos hxid]
      exact hcap
    · rw [if_neg hxid]
      exact c4 x hx
  · -- exact counts
    intro q hq
    obtain ⟨x, hx, rfl⟩ := List.mem_map.mp hq
    by_cases hxid : (x.id == a.proxyId) = true
    · have hxid1 : x.id = a.proxyId := beq_iff_eq.mp hxid
      rw [if_pos hxid]
      dsimp only
      rw [hbc x.id, show (a.proxyId == x.id) = true by
        rw [beq_iff_eq]; exact hxid1.symm]
      rw [c5b x hx]
      rfl
    · have hxid1 : ¬ x.id = a.proxyId := by simpa using hxid
      rw [if_neg hxid]
      rw [hbc x.id, show (a.proxyId == x.id) = false by
        rw [beq_eq_false_iff_ne]
        exact fun h => hxid1 h.symm]
      simp only [Bool.false_eq_true, if_false, Nat.add_zero]
      exact c5b x hx
  · -- exactly one active mapping per account
    intro b hb
    rw [List.countP_append]
    simp only [List.countP_cons, List.countP_nil]
    rcases List.mem_append.mp hb with hb1 | hb2
    · have hbne : (a.id == b.id) = false := by
        rw [beq_eq_false_iff_ne]
        exact fun h => hidfresh b hb1 h.symm
      have := c6b b hb1
      simp only [hbne, Bool.false_and, Bool.false_eq_true, if_false]
      omega
    · have hba : b = a := by simpa using hb2
      subst hba
      have hzero : s.mappings.countP
          (fun m => m.accountId == b.id && m.isActive) = 0 :=
        List.countP_eq_zero.mpr (hnoactive)
      simp [hzero]
  · -- active mapping agrees with the live pointer
    intro b hb m hm hmid hact
    rcases List.mem_append.mp hm with hm1 | hm2
    · rcases List.mem_append.mp hb with hb1 | hb2
      · exact c7 b hb1 m hm1 hmid hact
      · have hba : b = a := by simpa using hb2
        subst hba
        exact absurd (by simp [hmid, hact]) (hnoactive m hm1)
    · rw [List.mem_singleton] at hm2
      subst hm2
      rcases List.mem_append.mp hb with hb1 | hb2
      · exact absurd hmid.symm (by simpa using (hidfresh b hb1))
      · have hba : b = a := by simpa using hb2
        subst hba
        rfl
  · -- every active mapping has an owner
    intro m hm hact
    rcases List.mem_append.mp hm with hm1 | hm2
    · obtain ⟨b, hb, hbid⟩ := c8 m hm1 hact
      exact ⟨b, List.mem_append_left _ hb, hbid⟩
    · rw [List.mem_singleton] at hm2
      subst hm2
      exact ⟨a, List.mem_append_right _ (by simp), rfl⟩

/-- `DatabaseClient.updateAccountProxy` preserves consistency, provided
the target proxy exists and every proxy carrying its id has spare
capacity (the callers check this before calling). -/
theorem consistent_updateAccountProxy {s : DbState}
    {accountId newProxyId : String} {reason : Option String} {s' : DbState}
    (hc : Consistent s)
    (hok : updateAccountProxy s accountId newProxyId reason = Except.ok s')
    (hnp : ∃ q ∈ s.proxies, q.id = newProxyId)
    (hcap : ∀ q ∈ s.proxies, q.id = newProxyId →
      q.assignedAccounts < q.maxAccounts) :
    Consistent s' := by
  obtain ⟨c1, c2, c3, c4, c5, c6, c7, c8⟩ := hc
  unfold updateAccountProxy at hok
  cases hga : getAccount s accountId with
  | none =>
      rw [hga] at hok
      cases hok
  | some account =>
  rw [hga] at hok
  have hga2 : s.accounts.find? (fun b => b.id == accountId) = some account :=
    hga
  have haccmem : account ∈ s.accounts := List.mem_of_find?_eq_some hga2
  have haccid : account.id = accountId := by
    have := List.find?_some hga2
    simpa using this
  subst haccid
  cases hok
  have hid_upd : ∀ x : Account,
      ((if (x.id == account.id) = true then
        { x with proxyId := newProxyId } else x) : Account).id = x.id := by
    intro x
    by_cases h : (x.id == account.id) = true
    · rw [if_pos h]
    · rw [if_neg h]
  obtain ⟨A1, A2, hA, hArest⟩ :=
    split_of_nodup_key (fun b : Account => b.id) c2 haccmem
  have hAmap : s.accounts.map (fun b => if b.id == account.id
      then { b with proxyId := newProxyId } else b) =
      A1 ++ { account with proxyId := newProxyId } :: A2 := by
    rw [hA]
    exact map_update_split (fun b : Account => b.id)
      (fun b => { b with proxyId := newProxyId }) hArest
  have c5b : ∀ q ∈ s.proxies, q.assignedAccounts =
      List.countP (fun b : Account => b.proxyId == q.id)
        (A1 ++ account :: A2) := by
    intro q hq
    have h := c5 q hq
    unfold boundCount at h
    rw [hA] at h
    exact h
  have c6b : ∀ b ∈ s.accounts,
      List.countP (fun m => m.accountId == b.id && m.isActive)
        s.mappings = 1 :=
    c6
  have hbound : ∀ pid : String,
      List.countP (fun b : Account => b.proxyId == pid)
          (A1 ++ { account with proxyId := newProxyId } :: A2) +
        (if (account.proxyId == pid) = true then 1 else 0) =
      List.countP (fun b : Account => b.proxyId == pid) (A1 ++ account :: A2) +
        (if (newProxyId == pid) = true then 1 else 0) := by
    intro pid
    rw [List.countP_append, List.countP_append, List.countP_cons,
      List.countP_cons]
    dsimp only
    by_cases h1 : (account.proxyId == pid) = true <;>
      by_cases h2 : (newProxyId == pid) = true <;>
        simp [h1, h2] <;> omega
  have hdm_other : ∀ z : String, ¬ z = account.id →
      List.countP (fun m => m.accountId == z && m.isActive)
        (s.mappings.map (fun m =>
          if m.accountId == account.id && m.proxyId == account.proxyId
          then { m with isActive := false } else m)) =
      List.countP (fun m => m.accountId == z && m.isActive) s.mappings := by
    intro z hz
    rw [List.countP_map]
    apply List.countP_congr
    intro m hm
    simp only [Function.comp_apply]
    by_cases hcnd :
        (m.accountId == account.id && m.proxyId == account.proxyId) = true
    · rw [if_pos hcnd]
      dsimp only
      have hmz : (m.accountId == z) = false := by
        rw [beq_eq_false_iff_ne]
        intro he
        rw [Bool.and_eq_true] at hcnd
        exact hz (by rw [← he, beq_iff_eq.mp hcnd.1])
      rw [hmz]
      simp
    · rw [if_neg hcnd]
  have hdm_self :
      List.countP (fun m => m.accountId == account.id && m.isActive)
        (s.mappings.map (fun m =>
          if m.accountId == account.id && m.proxyId == account.proxyId
          then { m with isActive := false } else m)) = 0 := by
    apply List.countP_eq_zero.mpr
    intro y hy
    obtain ⟨m, hm, rfl⟩ := List.mem_map.mp hy
    by_cases hcnd :
        (m.accountId == account.id && m.proxyId == account.proxyId) = true
    · rw [if_pos hcnd]
      simp
    · rw [if_neg hcnd]
      intro hbad
      rw [Bool.and_eq_true] at hbad
      have hmid : m.accountId = account.id := beq_iff_eq.mp hbad.1
      have hmp := c7 account haccmem m hm hmid hbad.2
      exact hcnd (by
        rw [Bool.and_eq_true]
        exact ⟨hbad.1, by rw [beq_iff_eq]; exact hmp⟩)
  show Consistent
    { proxies := (s.proxies.map (fun x => if x.id == account.proxyId
          then { x with assignedAccounts := x.assignedAccounts - 1 }
          else x)).map
        (fun x => if x.id == newProxyId
          then { x with assignedAccounts := x.assignedAccounts + 1 } else x),
      accounts := s.accounts.map (fun b => if b.id == account.id
          then { b with proxyId := newProxyId } else b),
      mappings := (s.mappings.map (fun m =>
          if m.accountId == account.id && m.proxyId == account.proxyId
          then { m with isActive := false } else m)) ++
        [{ id := s.nextId, accountId := account.id, proxyId := newProxyId,
           isActive := true, previousProxyId := some account.proxyId,
           reassignmentReason := reason }],
      incidents := s.incidents, logs := s.logs, nextId := s.nextId + 1 }
  unfold Consistent boundCount activeMappingCount
  dsimp only
  refine ⟨?_, ?_, ?_, ?_, ?_, ?_, ?_, ?_⟩
  · -- proxy ids Nodup
    exact nodup_ids_map_update _ newProxyId
      (fun q => { q with assignedAccounts := q.assignedAccounts + 1 })
      (fun x => rfl)
      (nodup_ids_map_update s.proxies account.proxyId
        (fun q => { q with assignedAccounts := q.assignedAccounts - 1 })
        (fun x => rfl) c1)
  · -- account ids Nodup
    exact nodup_key_map_update (fun b : Account => b.id)
      (fun b => { b with proxyId := newProxyId }) account.id
      (fun x => rfl) s.accounts c2
  · -- every account points at an existing proxy
    intro b hb
    obtain ⟨x, hx, rfl⟩ := List.mem_map.mp hb
    by_cases hxa : (x.id == account.id) = true
    · rw [if_pos hxa]
      dsimp only
      exact exists_id_map_update _ newProxyId
        (fun q => { q with assignedAccounts := q.assignedAccounts + 1 })
        (fun y => rfl) newProxyId
        (exists_id_map_update s.proxies account.proxyId
          (fun q => { q with assignedAccounts := q.assignedAccounts - 1 })
          (fun y => rfl) newProxyId hnp)
    · rw [if_neg hxa]
      exact exists_id_map_update _ newProxyId
        (fun q => { q with assignedAccounts := q.assignedAccounts + 1 })
        (fun y => rfl) x.proxyId
        (exists_id_map_update s.proxies account.proxyId
          (fun q => { q with assignedAccounts := q.assignedAccounts - 1 })
          (fun y => rfl) x.proxyId (c3 x hx))
  · -- capacity
    intro q hq
    obtain ⟨y, hy, rfl⟩ := List.mem_map.mp hq
    obtain ⟨x, hx, rfl⟩ := List.mem_map.mp hy
    by_cases hxo : (x.id == account.proxyId) = true
    · rw [if_pos hxo]
      dsimp only
      by_cases hxn : (x.id == newProxyId) = true
      · rw [if_pos hxn]
        dsimp only
        have h := hcap x hx (beq_iff_eq.mp hxn)
        omega
      · rw [if_neg hxn]
        dsimp only
        have h := c4 x hx
        omega
    · rw [if_neg hxo]
      by_cases hxn : (x.id == newProxyId) = true
      · rw [if_pos hxn]
        dsimp only
        have h := hcap x hx (beq_iff_eq.mp hxn)
        omega
      · rw [if_neg hxn]
        exact c4 x hx
  · -- exact counts
    rw [hAmap]
    intro q hq
    obtain ⟨y, hy, rfl⟩ := List.mem_map.mp hq
    obtain ⟨x, hx, rfl⟩ := List.mem_map.mp hy
    have e := hbound x.id
    have c5x := c5b x hx
    by_cases hxo : (x.id == account.proxyId) = true
    · have ho : (account.proxyId == x.id) = true := by
        rw [beq_iff_eq]
        exact (beq_iff_eq.mp hxo).symm
      rw [if_pos ho] at e
      have hone : 0 < List.countP (fun b : Account => b.proxyId == x.id)
          (A1 ++ account :: A2) :=
        List.countP_pos_iff.mpr ⟨account, by simp, ho⟩
      rw [if_pos hxo]
      dsimp only
      by_cases hxn : (x.id == newProxyId) = true
      · have hn : (newProxyId == x.id) = true := by
          rw [beq_iff_eq]
          exact (beq_iff_eq.mp hxn).symm
        rw [if_pos hn] at e
        rw [if_pos hxn]
        dsimp only
        omega
      · have hnn : ¬ ((newProxyId == x.id) = true) := by
          rw [beq_iff_eq]
          intro h
          exact (by simpa using hxn : ¬ x.id = newProxyId) h.symm
        rw [if_neg hnn] at e
        rw [if_neg hxn]
        dsimp only
        omega
    · have hno : ¬ ((account.proxyId == x.id) = true) := by
        rw [beq_iff_eq]
        intro h
        exact (by simpa using hxo : ¬ x.id = account.proxyId) h.symm
      rw [if_neg hno] at e
      rw [if_neg hxo]
      by_cases hxn : (x.id == newProxyId) = true
      · have hn : (newProxyId == x.id) = true := by
          rw [beq_iff_eq]
          exact (beq_iff_eq.mp hxn).symm
        rw [if_pos hn] at e
        rw [if_pos hxn]
        dsimp only
        omega
      · have hnn : ¬ ((newProxyId == x.id) = true) := by
          rw [beq_iff_eq]
          intro h
          exact (by simpa using hxn : ¬ x.id = newProxyId) h.symm
        rw [if_neg hnn] at e
        rw [if_neg hxn]
        omega
  · -- exactly one active mapping per account
    intro b hb
    obtain ⟨x, hx, rfl⟩ := List.mem_map.mp hb
    rw [hid_upd x]
    rw [List.countP_append]
    simp only [List.countP_cons, List.countP_nil]
    by_cases hxa : (x.id == account.id) = true
    · have hxae : x = account :=
        key_unique (fun b : Account => b.id) c2 hx haccmem
          (beq_iff_eq.mp hxa)
      subst hxae
      rw [hdm_self]
      simp
    · have hxane : ¬ x.id = account.id := by simpa using hxa
      have hne : (account.id == x.id) = false := by
        rw [beq_eq_false_iff_ne]
        exact fun h => hxane h.symm
      rw [hdm_other x.id hxane]
      rw [c6b x hx]
      simp [hne]
  · -- the active mapping agrees with the live pointer
    intro b hb m hm hmid hact
    obtain ⟨x, hx, rfl⟩ := List.mem_map.mp hb
    rw [hid_upd x] at hmid
    rcases List.mem_append.mp hm with hm1 | hm2
    · obtain ⟨m0, hm0, rfl⟩ := List.mem_map.mp hm1
      by_cases hcnd :
          (m0.accountId == account.id && m0.proxyId == account.proxyId) = true
      · rw [if_pos hcnd] at hact
        exact absurd hact (by simp)
      · rw [if_neg hcnd] at hmid hact ⊢
        by_cases hxa : (x.id == account.id) = true
        · have hxae : x = account :=
            key_unique (fun b : Account => b.id) c2 hx haccmem
              (beq_iff_eq.mp hxa)
          subst hxae
          have hpid := c7 x hx m0 hm0 hmid hact
          exact absurd (by
            rw [Bool.and_eq_true]
            exact ⟨by rw [beq_iff_eq]; exact hmid,
              by rw [beq_iff_eq]; exact hpid⟩) hcnd
        · have hpid := c7 x hx m0 hm0 hmid hact
          rw [if_neg hxa]
          exact hpid
    · rw [List.mem_singleton] at hm2
      subst hm2
      have hax : account.id = x.id := hmid
      have hxae : x = account :=
        key_unique (fun b : Account => b.id) c2 hx haccmem hax.symm
      subst hxae
      have hxt : (x.id == x.id) = true := by simp
      rw [if_pos hxt]
  · -- every active mapping has an owner
    intro m hm hact
    rcases List.mem_append.mp hm with hm1 | hm2
    · obtain ⟨m0, hm0, rfl⟩ := List.mem_map.mp hm1
      by_cases hcnd :
          (m0.accountId == account.id && m0.proxyId == account.proxyId) = true
      · rw [if_pos hcnd] at hact
        exact absurd hact (by simp)
      · rw [if_neg hcnd] at hact ⊢
        obtain ⟨a0, ha0, ha0id⟩ := c8 m0 hm0 hact
        refine ⟨_, List.mem_map_of_mem
          (fun b => if b.id == account.id
            then { b with proxyId := newProxyId } else b) ha0, ?_⟩
        rw [hid_upd a0]
        exact ha0id
    · rw [List.mem_singleton] at hm2
      subst hm2
      refine ⟨_, List.mem_map_of_mem
        (fun b => if b.id == account.id
          then { b with proxyId := newProxyId } else b) haccmem, ?_⟩
      rw [hid_upd account]

/-- `AccountProxyMapping.createAccount` preserves consistency: the chosen
proxy comes from `findAvailableProxy`, so it exists and has spare
capacity. -/
theorem consistent_mappingCreateAccount {s : DbState}
    (hc : Consistent s) (config : AccountConfig) :
    Consistent (mappingCreateAccount s config).2 := by
  cases hfa : findAvailableProxy s with
  | none =>
      simp only [mappingCreateAccount, hfa]
      exact hc
  | some proxy =>
      obtain ⟨hmem, hact2, hcap2, hbest⟩ := findAvailableProxy_some hfa
      have hlt : ¬ proxy.maxAccounts ≤ proxy.assignedAccounts := by omega
      simp only [mappingCreateAccount, hfa]
      rw [if_neg hlt]
      cases hok : dbCreateAccount s (newAccount config proxy.id) with
      | error e =>
          simp only [hok]
          exact hc
      | ok s1 =>
          simp only [hok]
          exact consistent_dbCreateAccount hc hok proxy hmem rfl hcap2

/-- `AccountProxyMapping.moveAccount` preserves consistency: the target
proxy is looked up and its capacity checked before the update. -/
theorem consistent_moveAccount {s : DbState} (hc : Consistent s)
    (accountId targetProxyId : String) (reason : Option String) :
    Consistent (moveAccount s accountId targetProxyId reason).2 := by
  cases hga : getAccount s accountId with
  | none =>
      simp only [moveAccount, hga]
      exact hc
  | some a0 =>
      cases hgp : getProxy s targetProxyId with
      | none =>
          simp only [moveAccount, hga, hgp]
          exact hc
      | some tp =>
          have hgp2 : s.proxies.find? (fun p => p.id == targetProxyId) =
              some tp := hgp
          have htpmem : tp ∈ s.proxies := List.mem_of_find?_eq_some hgp2
          have htpid : tp.id = targetProxyId := by
            have := List.find?_some hgp2
            simpa using this
          by_cases hcapb : tp.maxAccounts ≤ tp.assignedAccounts
          · simp only [moveAccount, hga, hgp]
            rw [if_pos hcapb]
            exact hc
          · simp only [moveAccount, hga, hgp]
            rw [if_neg hcapb]
            cases hok : updateAccountProxy s accountId targetProxyId
                (some (orFalsy reason "manual_move")) with
            | error e =>
                simp only [hok]
                exact hc
            | ok s1 =>
                simp only [hok]
                refine consistent_updateAccountProxy hc hok
                  ⟨tp, htpmem, htpid⟩ ?_
                intro q hq hqid
                have hqe : q = tp := key_unique (fun p : Proxy => p.id)
                  hc.1 hq htpmem (hqid.trans htpid.symm)
                subst hqe
                omega

/-- The `try` body of `handleProxyFailure` preserves consistency whichever
branch it takes. -/
theorem consistent_handleProxyFailureBody {db : DbState} (hc : Consistent db)
    (accountId : String) (reason : Option String) (auto : Bool) :
    Consistent (handleProxyFailureBody db accountId reason auto).2 := by
  cases hga : getAccount db accountId with
  | none =>
      simp only [handleProxyFailureBody, hga]
      exact hc
  | some account =>
      cases auto with
      | false =>
          simp only [handleProxyFailureBody, hga]
          exact consistent_of_eq rfl rfl rfl hc
      | true =>
          simp only [handleProxyFailureBody, hga]
          have hc1 : Consistent (updateProxyF db account.proxyId
              (fun p => { p with status := ProxyStatus.failed })) :=
            consistent_updateProxyF_meta (fun x => rfl) (fun x => rfl)
              (fun x => rfl) hc
          cases hfa : findAvailableProxy (updateProxyF db account.proxyId
              (fun p => { p with status := ProxyStatus.failed })) with
          | none =>
              simp only [hfa]
              exact consistent_of_eq rfl rfl rfl hc1
          | some newProxy =>
              obtain ⟨hmem1, hact1, hcap1, hbest1⟩ :=
                findAvailableProxy_some hfa
              simp only [hfa]
              cases hok : updateAccountProxy (updateProxyF db account.proxyId
                  (fun p => { p with status := ProxyStatus.failed }))
                  accountId newProxy.id
                  (some (orFalsy reason "proxy_failure")) with
              | error e =>
                  simp only [hok]
                  exact hc1
              | ok db2 =>
                  simp only [hok]
                  have hc2 : Consistent db2 := by
                    refine consistent_updateAccountProxy hc1 hok
                      ⟨newProxy, hmem1, rfl⟩ ?_
                    intro q hq hqid
                    have hqe : q = newProxy := key_unique
                      (fun p : Proxy => p.id) hc1.1 hq hmem1 hqid
                    subst hqe
                    exact hcap1
                  exact consistent_of_eq rfl rfl rfl hc2

/-- `ProxyFailover.handleProxyFailure` preserves consistency of the
database: the guard branch leaves it unchanged and the body preserves
it. -/
theorem consistent_handleProxyFailure {fs : FailoverState}
    (hc : Consistent fs.db) (accountId : String) (reason : Option String)
    (auto : Bool) :
    Consistent (handleProxyFailure fs accountId reason auto).2.db := by
  simp only [handleProxyFailure, guardedRun]
  by_cases hin : fs.inProgress.contains accountId = true
  · rw [if_pos hin]
    exact hc
  · rw [if_neg hin]
    have hpres := consistent_handleProxyFailureBody hc accountId reason auto
    rcases hbody : handleProxyFailureBody fs.db accountId reason auto with
      ⟨exc, db1⟩
    rw [hbody] at hpres
    cases exc with
    | ok r => exact hpres
    | error e => exact hpres

/-- The serial loop of `bulkFailover` preserves consistency. -/
theorem consistent_bulkFailoverGo (reason : Option String) (auto : Bool) :
    ∀ (l : List String) (fs : FailoverState), Consistent fs.db →
      Consistent (bulkFailoverGo reason auto fs l).2.db := by
  intro l
  induction l with
  | nil =>
      intro fs hc
      exact hc
  | cons aid rest ih =>
      intro fs hc
      have h1 := consistent_handleProxyFailure hc aid
        (some (orFalsy reason "bulk_failover")) auto
      exact ih (handleProxyFailure fs aid
        (some (orFalsy reason "bulk_failover")) auto).2 h1

/-- `ProxyFailover.bulkFailover` preserves consistency. -/
theorem consistent_bulkFailover {fs : FailoverState} (hc : Consistent fs.db)
    (fromProxyId : String) (reason : Option String) (auto : Bool) :
    Consistent (bulkFailover fs fromProxyId reason auto).2.db := by
  have h1 : Consistent (updateProxyF fs.db fromProxyId
      (fun p => { p with status := ProxyStatus.failed })) :=
    consistent_updateProxyF_meta (fun x => rfl) (fun x => rfl)
      (fun x => rfl) hc
  exact consistent_bulkFailoverGo reason auto
    ((getAccountsByProxy fs.db fromProxyId).map (fun a => a.id))
    ⟨updateProxyF fs.db fromProxyId
      (fun p => { p with status := ProxyStatus.failed }), fs.inProgress⟩ h1

/-- The inner move loop of `rebalanceMappings` preserves consistency:
each move targets a freshly looked-up available proxy, and a failed
update leaves the state unchanged. -/
theorem consistent_rebalanceMoves (fromProxy : String) :
    ∀ (l : List String) (s : DbState), Consistent s →
      Consistent (rebalanceMoves s fromProxy l).2 := by
  intro l
  induction l with
  | nil =>
      intro s hc
      exact hc
  | cons aid rest ih =>
      intro s hc
      cases hfa : findAvailableProxy s with
      | some newProxy =>
          obtain ⟨hmem, hact1, hcap1, hbest1⟩ := findAvailableProxy_some hfa
          have hs1 : Consistent (match updateAccountProxy s aid newProxy.id
              (some "rebalancing") with
            | Except.ok s1 => s1
            | Except.error _ => s) := by
            cases hok : updateAccountProxy s aid newProxy.id
                (some "rebalancing") with
            | ok s1 =>
                refine consistent_updateAccountProxy hc hok
                  ⟨newProxy, hmem, rfl⟩ ?_
                intro q hq hqid
                have hqe : q = newProxy := key_unique
                  (fun p : Proxy => p.id) hc.1 hq hmem hqid
                subst hqe
                exact hcap1
            | error e => exact hc
          have h2 := ih (match updateAccountProxy s aid newProxy.id
              (some "rebalancing") with
            | Except.ok s1 => s1
            | Except.error _ => s) hs1
          simp only [rebalanceMoves]
          rw [hfa]
          exact h2
      | none =>
          have h2 := ih s hc
          simp only [rebalanceMoves]
          rw [hfa]
          exact h2

/-- The outer loop of `rebalanceMappings` preserves consistency. -/
theorem consistent_rebalanceOver :
    ∀ (l : List ProxyValidation) (s : DbState), Consistent s →
      Consistent (rebalanceOver s l).2 := by
  intro l
  induction l with
  | nil =>
      intro s hc
      exact hc
  | cons v rest ih =>
      intro s hc
      by_cases hv : v.isValid = true
      · simp only [rebalanceOver]
        rw [if_pos hv]
        exact ih s hc
      · simp only [rebalanceOver]
        rw [if_neg hv]
        have h1 := consistent_rebalanceMoves v.proxyId
          (v.accounts.drop
            (v.accounts.length - (v.accountCount - v.maxAllowed))) s hc
        exact ih ((rebalanceMoves s v.proxyId
          (v.accounts.drop
            (v.accounts.length - (v.accountCount - v.maxAllowed)))).2) h1

/-- `AccountProxyMapping.rebalanceMappings` preserves consistency. -/
theorem consistent_rebalanceMappings {s : DbState} (hc : Consistent s) :
    Consistent (rebalanceMappings s).2 := by
  by_cases hv : (validateMappings s).isValid = true
  · simp only [rebalanceMappings]
    rw [if_pos hv]
    exact hc
  · simp only [rebalanceMappings]
    rw [if_neg hv]
    exact consistent_rebalanceOver (validateMappings s).summary s hc

/-- Every public mutating operation preserves consistency. -/
theorem consistent_execStep {fs : FailoverState} (hc : Consistent fs.db)
    (step : Step) : Consistent (execStep fs step).db := by
  cases step with
  | createAccount config => exact consistent_mappingCreateAccount hc config
  | moveAccount accountId targetProxyId reason =>
      exact consistent_moveAccount hc accountId targetProxyId reason
  | failoverAccount accountId reason auto =>
      exact consistent_handleProxyFailure hc accountId reason auto
  | bulkFailover proxyId reason auto =>
      exact consistent_bulkFailover hc proxyId reason auto
  | rebalance => exact consistent_rebalanceMappings hc

/-- Consistency is preserved by every sequence of operations. -/
theorem consistent_execSteps :
    ∀ (steps : List Step) (fs : FailoverState), Consistent fs.db →
      Consistent (execSteps fs steps).db := by
  intro steps
  induction steps with
  | nil =>
      intro fs hc
      exact hc
  | cons st rest ih =>
      intro fs hc
      exact ih (execStep fs st) (consistent_execStep hc st)

/-- In a consistent state every account has an active mapping, so the
specification count (accounts pointing at the proxy whose mapping is
active) coincides with the plain bound count. -/
theorem activeBound_eq {s : DbState} (hc : Consistent s) (pid : String) :
    activeBoundCount s pid = boundCount s pid := by
  unfold activeBoundCount boundCount
  apply List.countP_congr
  intro a ha
  have h1 : activeMappingCount s a.id = 1 := hc.2.2.2.2.2.1 a ha
  have h2 : 0 < s.mappings.countP
      (fun m => m.accountId == a.id && m.isActive) := by
    unfold activeMappingCount at h1
    omega
  obtain ⟨m, hm, hma⟩ := List.countP_pos_iff.mp h2
  have hany : s.mappings.any (fun m => m.accountId == a.id && m.isActive) =
      true := List.any_eq_true.mpr ⟨m, hm, hma⟩
  rw [hany, Bool.and_true]

end Db

/-- Empty-database fixture used by the C4 witness. -/
def emptyDbFix : Db.DbState :=
  { proxies := [], accounts := [], mappings := [], incidents := [],
    logs := [], nextId := 0 }

/-- Witness for C4: a rejected second call on a held guard, and a
released guard after a completed run. -/
theorem c4_failover_guard_witness :
    Db.handleProxyFailure { db := emptyDbFix, inProgress := ["a1"] }
        "a1" none true =
      (Db.failResult "a1" "" Db.alreadyInProgressMsg none,
       { db := emptyDbFix, inProgress := ["a1"] }) ∧
    ((Db.guardedRun { db := emptyDbFix, inProgress := [] } "a1"
        (fun db => (Except.error "boom", db))).2.inProgress.contains "a1") =
      false := by
  constructor
  · exact c4_failover_guard.1 _ "a1" none true (by decide)
  · exact c4_failover_guard.2 _ "a1" _ (by decide)

-- ============================================================
-- C1 / C8: invariants over operation sequences
-- ============================================================

/-- A two-proxy, one-account consistent starting state used by the C1 and
C8 witnesses. -/
def accFixC1 : Account :=
  { id := "a1", name := "Alice", twitterHandle := "@a1",
    phase := Phase.warmup, day := 1, status := AccountStatus.active,
    healthScore := 100, proxyId := "p1", actionsToday := 0,
    spamScore := 0, dailyActionLimit := 10 }

def proxyFixC1a : Proxy :=
  { id := "p1", status := ProxyStatus.active, healthScore := 90,
    maxAccounts := 2, assignedAccounts := 1, avgResponseTime := 100,
    successRate := 100, lastTested := none }

def proxyFixC1b : Proxy :=
  { id := "p2", status := ProxyStatus.active, healthScore := 80,
    maxAccounts := 2, assignedAccounts := 0, avgResponseTime := 100,
    successRate := 100, lastTested := none }

def mapFixC1 : Mapping :=
  { id := 0, accountId := "a1", proxyId := "p1", isActive := true,
    previousProxyId := none, reassignmentReason := none }

def dbFixC1 : Db.DbState :=
  { proxies := [proxyFixC1a, proxyFixC1b], accounts := [accFixC1],
    mappings := [mapFixC1], incidents := [], logs := [], nextId := 1 }

def fsFixC1 : Db.FailoverState :=
  { db := dbFixC1, inProgress := [] }

def cfgFixC1 : Db.AccountConfig :=
  { id := "a2", name := "Bob", twitterHandle := "@b2",
    adspowerProfileId := "ap2" }

/-- A sequence exercising every operation of claim C1. -/
def stepsFixC1 : List Db.Step :=
  [Db.Step.createAccount cfgFixC1,
   Db.Step.moveAccount "a1" "p2" none,
   Db.Step.failoverAccount "a2" none true,
   Db.Step.bulkFailover "p2" none true,
   Db.Step.rebalance]

/-- C1: after any sequence of the five mutating operations starting from
a consistent state, every proxy satisfies
`0 ≤ assignedAccounts ≤ maxAccounts`, and `assignedAccounts` equals the
number of accounts whose `proxyId` points at the proxy and whose mapping
is active. -/
theorem c1_capacity_invariant :
    ∀ (fs : Db.FailoverState) (steps : List Db.Step),
      Db.Consistent fs.db →
      ∀ p ∈ (Db.execSteps fs steps).db.proxies,
        0 ≤ p.assignedAccounts ∧ p.assignedAccounts ≤ p.maxAccounts ∧
        p.assignedAccounts =
          Db.activeBoundCount (Db.execSteps fs steps).db p.id := by
  intro fs steps hc p hp
  have hc2 := Db.consistent_execSteps steps fs hc
  refine ⟨Nat.zero_le _, hc2.2.2.2.1 p hp, ?_⟩
  rw [Db.activeBound_eq hc2 p.id]
  exact hc2.2.2.2.2.1 p hp

/-- Witness for C1: the invariant holds after a concrete five-operation
run from a concrete consistent state. -/
theorem c1_capacity_invariant_witness :
    Db.Consistent fsFixC1.db ∧
    ∀ p ∈ (Db.execSteps fsFixC1 stepsFixC1).db.proxies,
      0 ≤ p.assignedAccounts ∧ p.assignedAccounts ≤ p.maxAccounts ∧
      p.assignedAccounts =
        Db.activeBoundCount (Db.execSteps fsFixC1 stepsFixC1).db p.id :=
  ⟨by decide, c1_capacity_invariant fsFixC1 stepsFixC1 (by decide)⟩

/-- The state produced by the C8 witness call of
`DatabaseClient.createAccount`. -/
def c8CreatedState : Db.DbState :=
  match Db.dbCreateAccount fsFixC1.db (Db.newAccount cfgFixC1 "p2") with
  | Except.ok s1 => s1
  | Except.error _ => fsFixC1.db

/-- C8: (1) after any sequence of operations from a consistent state
every account has exactly one active mapping; (2) a successful
`moveAccount` rewrites the mapping table by deactivating exactly the
(account, old proxy) rows — of which exactly one was active — and
appending exactly one new active mapping carrying `previousProxyId` and
the reason; (3) `DatabaseClient.createAccount` appends exactly one new
active mapping. -/
theorem c8_mapping_uniqueness :
    (∀ (steps : List Db.Step) (fs : Db.FailoverState),
      Db.Consistent fs.db →
      ∀ a ∈ (Db.execSteps fs steps).db.accounts,
        Db.activeMappingCount (Db.execSteps fs steps).db a.id = 1) ∧
    (∀ (s : Db.DbState) (accountId targetProxyId : String)
        (reason : Option String) (a0 : Account),
      Db.Consistent s →
      Db.getAccount s accountId = some a0 →
      (Db.moveAccount s accountId targetProxyId reason).1.success = true →
      (Db.moveAccount s accountId targetProxyId reason).2.mappings =
          s.mappings.map (fun m =>
            if m.accountId == accountId && m.proxyId == a0.proxyId then
              { m with isActive := false }
            else m) ++
          [{ id := s.nextId, accountId := accountId,
             proxyId := targetProxyId, isActive := true,
             previousProxyId := some a0.proxyId,
             reassignmentReason := some (orFalsy reason "manual_move") }] ∧
        s.mappings.countP (fun m =>
          (m.accountId == accountId && m.proxyId == a0.proxyId) &&
            m.isActive) = 1) ∧
    (∀ (s : Db.DbState) (a : Account) (s1 : Db.DbState),
      Db.dbCreateAccount s a = Except.ok s1 →
      s1.mappings = s.mappings ++
        [{ id := s.nextId, accountId := a.id, proxyId := a.proxyId,
           isActive := true, previousProxyId := none,
           reassignmentReason := none }]) := by
  refine ⟨?_, ?_, ?_⟩
  · intro steps fs hc a ha
    exact (Db.consistent_execSteps steps fs hc).2.2.2.2.2.1 a ha
  · intro s accountId targetProxyId reason a0 hc hget hsucc
    have hget2 : s.accounts.find? (fun b => b.id == accountId) = some a0 :=
      hget
    have hamem : a0 ∈ s.accounts := List.mem_of_find?_eq_some hget2
    have haid : a0.id = accountId := by
      have := List.find?_some hget2
      simpa using this
    cases hgp : Db.getProxy s targetProxyId with
    | none =>
        exfalso
        have hfalse : (Db.moveAccount s accountId targetProxyId
            reason).1.success = false := by
          simp only [Db.moveAccount, hget, hgp]
        rw [hfalse] at hsucc
        exact absurd hsucc (by decide)
    | some tp =>
        by_cases hcapb : tp.maxAccounts ≤ tp.assignedAccounts
        · exfalso
          have hfalse : (Db.moveAccount s accountId targetProxyId
              reason).1.success = false := by
            simp only [Db.moveAccount, hget, hgp]
            rw [if_pos hcapb]
          rw [hfalse] at hsucc
          exact absurd hsucc (by decide)
        · cases hok : Db.updateAccountProxy s accountId targetProxyId
              (some (orFalsy reason "manual_move")) with
          | error e =>
              exfalso
              have hfalse : (Db.moveAccount s accountId targetProxyId
                  reason).1.success = false := by
                simp only [Db.moveAccount, hget, hgp]
                rw [if_neg hcapb]
                rw [hok]
              rw [hfalse] at hsucc
              exact absurd hsucc (by decide)
          | ok s1 =>
              have hstate : (Db.moveAccount s accountId targetProxyId
                  reason).2 = s1 := by
                simp only [Db.moveAccount, hget, hgp]
                rw [if_neg hcapb]
                rw [hok]
              constructor
              · rw [hstate]
                unfold Db.updateAccountProxy at hok
                rw [hget] at hok
                cases hok
                rfl
              · have hc7 := hc.2.2.2.2.2.2.1
                have hc6 := hc.2.2.2.2.2.1
                have hpt : ∀ m ∈ s.mappings,
                    ((m.accountId == accountId &&
                        m.proxyId == a0.proxyId) && m.isActive) =
                    (m.accountId == a0.id && m.isActive) := by
                  intro m hm
                  rw [haid]
                  by_cases hma : (m.accountId == accountId) = true
                  · by_cases hact : m.isActive = true
                    · have hmid : m.accountId = a0.id := by
                        rw [beq_iff_eq.mp hma, haid]
                      have hmp := hc7 a0 hamem m hm hmid hact
                      have h1 : (m.proxyId == a0.proxyId) = true := by
                        rw [beq_iff_eq]
                        exact hmp
                      rw [hma, h1, hact]
                      rfl
                    · have hact2 : m.isActive = false := by
                        cases hia : m.isActive
                        · rfl
                        · exact absurd hia hact
                      rw [hact2]
                      simp
                  · have hma2 : (m.accountId == accountId) = false := by
                      cases hq : (m.accountId == accountId)
                      · rfl
                      · exact absurd hq hma
                    rw [hma2]
                    simp
                have hpt2 : ∀ m ∈ s.mappings,
                    ((m.accountId == accountId &&
                        m.proxyId == a0.proxyId) && m.isActive) = true ↔
                    (m.accountId == a0.id && m.isActive) = true := by
                  intro m hm
                  rw [hpt m hm]
                rw [List.countP_congr hpt2]
                have h6 := hc6 a0 hamem
                unfold Db.activeMappingCount at h6
                exact h6
  · intro s a s1 hok
    unfold Db.dbCreateAccount at hok
    by_cases hidg : (s.accounts.any (fun b => b.id == a.id)) = true
    · rw [if_pos hidg] at hok; cases hok
    rw [if_neg hidg] at hok
    by_cases hhg :
        (s.accounts.any (fun b => b.twitterHandle == a.twitterHandle)) = true
    · rw [if_pos hhg] at hok; cases hok
    rw [if_neg hhg] at hok
    cases hok
    rfl

/-- Witness for C8: all three parts at concrete inputs — the invariant
after a concrete run, a concrete successful move with exactly one
previously active mapping, and a concrete account creation. -/
theorem c8_mapping_uniqueness_witness :
    (Db.Consistent fsFixC1.db ∧
      ∀ a ∈ (Db.execSteps fsFixC1 stepsFixC1).db.accounts,
        Db.activeMappingCount (Db.execSteps fsFixC1 stepsFixC1).db a.id =
          1) ∧
    (Db.getAccount fsFixC1.db "a1" = some accFixC1 ∧
      (Db.moveAccount fsFixC1.db "a1" "p2" none).1.success = true ∧
      fsFixC1.db.mappings.countP (fun m =>
        (m.accountId == "a1" && m.proxyId == accFixC1.proxyId) &&
          m.isActive) = 1) ∧
    (Db.dbCreateAccount fsFixC1.db (Db.newAccount cfgFixC1 "p2") =
        Except.ok c8CreatedState ∧
      c8CreatedState.mappings = fsFixC1.db.mappings ++
        [{ id := fsFixC1.db.nextId, accountId := cfgFixC1.id,
           proxyId := "p2", isActive := true, previousProxyId := none,
           reassignmentReason := none }]) :=
  ⟨⟨by decide, c8_mapping_uniqueness.1 stepsFixC1 fsFixC1 (by decide)⟩,
   ⟨by decide, by decide,
     (c8_mapping_uniqueness.2.1 fsFixC1.db "a1" "p2" none accFixC1
       (by decide) (by decide) (by decide)).2⟩,
   ⟨by rfl,
     c8_mapping_uniqueness.2.2 fsFixC1.db (Db.newAccount cfgFixC1 "p2")
       c8CreatedState (by rfl)⟩⟩

end ControlCenter
